import Mathlib

/-!
# System Constitution validator — verification of the multi-phase pipeline

Shallow embedding of the SysConst DSL validator (`cli/src/validator`):
the typed document model (`types.ts`), the six validation phases and the
pipeline orchestrator (`validate` in `index.ts`), plus a JSON-like value
type used to embed Phase 1 (which operates on the raw parsed document).

JavaScript-specific semantics (truthiness, `typeof x === 'object'`,
property access on non-objects yielding `undefined`) are modelled
explicitly where the source relies on them.  In-place mutation performed
by Phase 3 (`contract.level = 'hard'`) is modelled by explicit state
passing: the semantic phase returns both its error list and the updated
document, and the orchestrator threads the document through it.
-/

namespace SysConst

/-- Severity level of a finding (`ErrorLevel` in `types.ts`). -/
inductive Level where
  | hard
  | soft
deriving DecidableEq

/-- Error codes used by the embedded phases (subset of `ErrorCode` in
`types.ts` that the translated code can actually emit). -/
inductive ErrorCode where
  | STRUCTURAL_ERROR
  | MISSING_SPEC_VERSION
  | INVALID_SPEC_VERSION
  | MISSING_PROJECT
  | MISSING_PROJECT_ID
  | MISSING_VERSIONING
  | MISSING_CURRENT_VERSION
  | MISSING_STRUCTURE
  | MISSING_STRUCTURE_ROOT
  | MISSING_DOMAIN
  | MISSING_DOMAIN_NODES
  | INVALID_NODE
  | MISSING_NODE_KIND
  | INVALID_NODE_KIND
  | MISSING_NODE_ID
  | INVALID_NODE_ID
  | MISSING_NODE_SPEC
  | DUPLICATE_NODE_ID
  | UNRESOLVED_NODEREF
  | UNRESOLVED_ROOT
  | INVALID_ROOT_KIND
  | CIRCULAR_CHILDREN
  | SEMANTIC_ERROR
  | ENTITY_MISSING_FIELDS
  | FIELD_MISSING_TYPE
  | UNRESOLVED_REF_TYPE
  | COMMAND_MISSING_INPUT
  | EVENT_MISSING_PAYLOAD
  | QUERY_MISSING_INPUT
  | QUERY_MISSING_OUTPUT
  | PROCESS_MISSING_TRIGGER
  | INVALID_PROCESS_TRIGGER
  | INVALID_PROCESS_CHILDREN
  | SCENARIO_MISSING_GIVEN
  | SCENARIO_MISSING_WHEN
  | SCENARIO_MISSING_THEN
  | INVALID_CONTRACT
  | UNRESOLVED_EFFECT_EVENT
  | UNRESOLVED_EFFECT_ENTITY
  | INVALID_HISTORY_START
  | BROKEN_HISTORY_CHAIN
  | VERSION_MISMATCH
  | MISSING_MIGRATION
  | MIGRATION_MISSING_ID
  | MIGRATION_MISSING_KIND
  | INVALID_MIGRATION_KIND
  | MIGRATION_MISSING_STEPS
  | GENERATION_ERROR
  | OVERLAPPING_ZONES
  | DUPLICATE_HOOK_ID
  | INVALID_HOOK_ANCHORS
  | HOOK_IN_OVERWRITE
  | MISSING_BUILD_PIPELINE
  | MISSING_TEST_PIPELINE
  | MISSING_MIGRATE_PIPELINE
  | EMPTY_PIPELINE_CMD
  | LOW_SCENARIO_COVERAGE
deriving DecidableEq

/-- A validation finding (`ValidationError` in `types.ts`).  The source's
`context` is a free-form record; the code only ever stores the cycle path
there, so it is modelled as an optional list of node ids. -/
structure ValidationError where
  code : ErrorCode
  phase : Nat
  level : Level
  message : String
  location : String
  suggestion : Option String := none
  context : Option (List String) := none
deriving DecidableEq

/-- Aggregated result of a validation run (`ValidationResult`). -/
structure ValidationResult where
  ok : Bool
  errors : List ValidationError
  warnings : List ValidationError
  phase : Nat
deriving DecidableEq

/-- Caller options (`ValidateOptions`), with the source's defaults. -/
structure ValidateOptions where
  phases : List Nat := [1, 2, 3, 4, 5, 6]
  strict : Bool := false

/-- JSON-like values, used for the raw parsed document consumed by
Phase 1 and for the untyped `spec` payloads (`Record<string, unknown>`)
inspected by Phases 3 and 6. -/
inductive JVal where
  | str (s : String)
  | num (n : Int)
  | bool (b : Bool)
  | null
  | arr (xs : List JVal)
  | obj (fields : List (String × JVal))

/-- JavaScript truthiness of a value. -/
def jTruthy : JVal → Bool
  | .str s => !(s == ("" : String))
  | .num n => !(n == 0)
  | .bool b => b
  | .null => false
  | .arr _ => true
  | .obj _ => true

/-- `typeof v === 'object'` (true for objects, arrays and `null`). -/
def jIsObjectType : JVal → Bool
  | .obj _ => true
  | .arr _ => true
  | .null => true
  | _ => false

/-- `Array.isArray v`. -/
def jIsArray : JVal → Bool
  | .arr _ => true
  | _ => false

/-- Property access `v[key]`: defined for objects (first binding wins, as
JavaScript object keys are unique); `undefined` (here `none`) on
everything else. -/
def jGet : JVal → String → Option JVal
  | .obj fields, key => fields.lookup key
  | _, _ => none

/-- `key in v` for the raw document object. -/
def jHasKey (v : JVal) (key : String) : Bool :=
  (jGet v key).isSome

/-- Truthiness of a possibly-absent property (`undefined` is falsy). -/
def jTruthyOpt : Option JVal → Bool
  | none => false
  | some v => jTruthy v

/-- `v === 'lit'` for an unknown value against a string literal. -/
def jEqStr : JVal → String → Bool
  | .str s, t => s == t
  | _, _ => false

mutual

/-- Template-literal stringification `${v}` (JavaScript semantics:
arrays join their elements with commas, objects print as
`[object Object]`). -/
def jShow : JVal → String
  | .str s => s
  | .num n => toString n
  | .bool b => if b then ("true" : String) else ("false" : String)
  | .null => "null"
  | .arr xs => String.intercalate ("," : String) (jShowList xs)
  | .obj _ => "[object Object]"

/-- Stringifies the elements of an array value. -/
def jShowList : List JVal → List String
  | [] => []
  | x :: xs => jShow x :: jShowList xs

end

/-- `String.prototype.startsWith` (character-list based). -/
def strStarts (s p : String) : Bool :=
  (s.toList.take p.toList.length) == p.toList

/-- `String.prototype.endsWith` (character-list based). -/
def strEnds (s p : String) : Bool :=
  (s.toList.drop (s.toList.length - p.toList.length)) == p.toList
    && decide (p.toList.length ≤ s.toList.length)

/-- `String.prototype.trim` (strips whitespace from both ends). -/
def strTrim (s : String) : String :=
  String.mk (((s.toList.dropWhile Char.isWhitespace).reverse.dropWhile
    Char.isWhitespace).reverse)

/-- Substring test (`String.prototype.includes`). -/
def strContains (hay needle : String) : Bool :=
  let h := hay.toList
  let n := needle.toList
  (List.range (h.length + 1)).any (fun i => ((h.drop i).take n.length) == n)

/-- Character class `[a-z0-9_.-]` of the id pattern. -/
def isIdChar (c : Char) : Bool :=
  c.isLower || c.isDigit || c == '_' || c == '.' || c == '-'

/-- The id pattern `^[a-z][a-z0-9_.-]*$` (`ID_PATTERN`). -/
def isValidId (s : String) : Bool :=
  match s.toList with
  | [] => false
  | c :: cs => c.isLower && cs.all isIdChar

/-- `NODEREF_PATTERN.exec`: parses `NodeRef(id)` and returns the captured
id, or `none` when the string does not match. -/
def parseNodeRef (s : String) : Option String :=
  if strStarts s ("NodeRef(") && strEnds s (")") then
    let inner := (s.drop 8).dropRight 1
    if isValidId inner then some inner else none
  else none

-- ============================================
-- Typed document model (`types.ts`)
-- ============================================

/-- A `hard`/`soft` tagged contract clause (`Contract`).  Absent keys are
`none`; the source checks them with JavaScript truthiness, so an empty
string also counts as absent there. -/
structure Contract where
  type : Option String := none
  invariant : Option String := none
  temporal : Option String := none
  rule : Option String := none
  level : Option Level := none
deriving DecidableEq

/-- An entry of a node's `children` array, typed `(string | Node)[]` in
the source.  Inline node entries are skipped by every phase (each guards
with `typeof child === 'string'`), so their payload is never inspected
and is not carried here. -/
inductive ChildEntry where
  | ref (s : String)
  | inlineNode

/-- A specification node (`Node`).  `meta`, `impl`, `facets` and `hooks`
are never read by any validation phase and are omitted.  `kind` is kept
as a raw string exactly as in the duck-typed source. -/
structure Node where
  kind : String
  id : String
  spec : List (String × JVal) := []
  children : Option (List ChildEntry) := none
  contracts : Option (List Contract) := none

/-- `project.versioning` (only `current` is ever read by the phases). -/
structure Versioning where
  current : String

/-- `project`. -/
structure Project where
  id : String
  versioning : Versioning

/-- `structure` section (field renamed: `structure` is a Lean keyword). -/
structure StructureSec where
  root : String

/-- `domain`. -/
structure Domain where
  nodes : List Node

/-- A generation zone. -/
structure Zone where
  path : String
  mode : String

/-- Hook location (anchors). -/
structure HookLoc where
  file : String
  anchorStart : String
  anchorEnd : String

/-- A generation hook. -/
structure Hook where
  id : String
  location : Option HookLoc := none

/-- A named pipeline. -/
structure Pipeline where
  cmd : String

/-- `generation.pipelines`. -/
structure Pipelines where
  build : Option Pipeline := none
  test : Option Pipeline := none
  e2e : Option Pipeline := none
  migrate : Option Pipeline := none
  lint : Option Pipeline := none

/-- `generation`. -/
structure Generation where
  zones : Option (List Zone) := none
  hooks : Option (List Hook) := none
  pipelines : Option Pipelines := none

/-- A `changes` entry of a history entry (`Change`); fields not read by
Phase 4 are omitted. -/
structure Change where
  op : String
  target : String
  field : Option String := none
  required : Option Bool := none

/-- A migration (`Migration`).  `kind` is kept as a raw string because
the phase validates it against the three allowed literals; steps contents
are never inspected. -/
structure Migration where
  id : String
  kind : String
  steps : Option (List JVal) := none

/-- A version-history entry (`HistoryEntry`).  Sequences absent in the
raw document behave identically to empty ones in the phase code (both
make the corresponding loops no-ops), and are modelled as `[]`. -/
structure HistoryEntry where
  version : String
  basedOn : Option String
  changes : List Change := []
  migrations : List Migration := []

/-- `tests`. -/
structure Tests where
  scenarios : Option (List String) := none

/-- The typed document (`EvoSpec` in `types.ts`); the constant `spec`
tag is implicit in the type. -/
structure EvoSpec where
  project : Project
  structure_ : StructureSec
  domain : Domain
  generation : Option Generation := none
  history : Option (List HistoryEntry) := none
  tests : Option Tests := none

-- ============================================
-- Node index (`new Map` + `nodeIndex.set` loop)
-- ============================================

/-- `nodeIndex.get`: the source fills a `Map` front to back, so the last
node with a given id wins. -/
def nodeIndexGet (nodes : List Node) (i : String) : Option Node :=
  nodes.foldl (fun acc n => if n.id == i then some n else acc) none

/-- `nodeIndex.has`. -/
def nodeIndexHas (nodes : List Node) (i : String) : Bool :=
  (nodeIndexGet nodes i).isSome

-- ============================================
-- Phase 2: Referential (`02-referential.ts`)
-- ============================================

/-- The parsed `NodeRef` targets of a node's children, in order (the
string entries matching `NODEREF_PATTERN`; inline nodes and malformed
strings carry no edge). -/
def childRefIds (n : Node) : List String :=
  match n.children with
  | none => []
  | some cs => cs.filterMap (fun c =>
      match c with
      | .ref s => parseNodeRef s
      | .inlineNode => none)

/-- The ids the circular-children traversal can ever visit: every node id
(the roots) and every parsed child reference. -/
def allIds (nodes : List Node) : List String :=
  nodes.map (fun n => n.id) ++ nodes.flatMap childRefIds

/-- The child ids explored from `nodeId` by the traversal
(`nodeIndex.get(nodeId)?.children`, parsed). -/
def childIdsOf (nodes : List Node) (nodeId : String) : List String :=
  match nodeIndexGet nodes nodeId with
  | some n => childRefIds n
  | none => []

/-- The edge relation of the `children` reference graph, exactly as the
traversal explores it (resolvable edges only). -/
def childEdge (nodes : List Node) (a b : String) : Bool :=
  (childIdsOf nodes a).contains b

/-- The error pushed when a node is found on the recursion stack. -/
def circularError (cyclePath : List String) : ValidationError :=
  { code := .CIRCULAR_CHILDREN
    phase := 2
    level := .hard
    message := ("Circular reference detected: " ++ String.intercalate (" -> ") cyclePath)
    location := "domain.nodes"
    context := some cyclePath }

/-- Mutable state of the circular-children traversal. -/
structure DfsState where
  errors : List ValidationError
  visited : List String
  recStack : List String

/-- Runs a step function over a child list, stopping at the first `true`
result (`for ... if (dfs(...)) return true`). -/
def runChildren (f : String → DfsState → DfsState × Bool) :
    List String → DfsState → DfsState × Bool
  | [], st => (st, false)
  | c :: rest, st =>
    let r := f c st
    if r.2 then (r.1, true) else runChildren f rest r.1

/-- The recursive `dfs` of `detectCircularChildren`, with a fuel
parameter bounding the nesting depth (one unit per nested call; the
chosen initial fuel is proved sufficient below).  On the cycle-found path
the node is *not* removed from the recursion stack, exactly as in the
source's early `return true`. -/
def dfs (nodes : List Node) : Nat → String → List String → DfsState → DfsState × Bool
  | 0, _, _, st => (st, false)
  | fuel + 1, nodeId, path, st =>
    if st.recStack.contains nodeId then
      ({ st with errors := st.errors ++ [circularError (path ++ [nodeId])] }, true)
    else if st.visited.contains nodeId then
      (st, false)
    else
      let st1 : DfsState :=
        { st with visited := nodeId :: st.visited, recStack := nodeId :: st.recStack }
      let r := runChildren (fun c st' => dfs nodes fuel c (path ++ [nodeId]) st')
        (childIdsOf nodes nodeId) st1
      if r.2 then (r.1, true)
      else ({ r.1 with recStack := r.1.recStack.erase nodeId }, false)

/-- `detectCircularChildren` with explicit fuel for each root call. -/
def detectCircularChildrenFuel (nodes : List Node) (fuel : Nat) : List ValidationError :=
  (nodes.foldl
    (fun (st : DfsState) (node : Node) =>
      if st.visited.contains node.id then st
      else (dfs nodes fuel node.id [] st).1)
    { errors := [], visited := [], recStack := [] }).errors

/-- `detectCircularChildren`, run at the (sufficient) fuel bound. -/
def detectCircularChildren (nodes : List Node) : List ValidationError :=
  detectCircularChildrenFuel nodes ((allIds nodes).length + 1)

/-- Phase 2 (`validateReferential`). -/
def validateReferential (spec : EvoSpec) : List ValidationError :=
  let nodes := spec.domain.nodes
  -- Validate structure.root
  let rootRef := spec.structure_.root
  let rootErrors : List ValidationError :=
    match parseNodeRef rootRef with
    | none =>
      [{ code := .UNRESOLVED_ROOT
         phase := 2
         level := .hard
         message := ("Invalid root reference format: " ++ rootRef)
         location := "structure.root"
         suggestion := some ("Use format: NodeRef(system.xxx)") }]
    | some rootId =>
      match nodeIndexGet nodes rootId with
      | none =>
        [{ code := .UNRESOLVED_ROOT
           phase := 2
           level := .hard
           message := ("Root node not found: " ++ rootId)
           location := "structure.root" }]
      | some rootNode =>
        if rootNode.kind == ("System" : String) then []
        else
          [{ code := .INVALID_ROOT_KIND
             phase := 2
             level := .hard
             message := ("Root node must be System, got: " ++ rootNode.kind)
             location := "structure.root" }]
  -- Validate all NodeRefs in children
  let childErrors : List ValidationError :=
    nodes.enum.flatMap (fun p =>
      match p.2.children with
      | none => []
      | some cs =>
        cs.enum.flatMap (fun q =>
          match q.2 with
          | .inlineNode => []
          | .ref child =>
            let loc := ("domain.nodes[" ++ toString p.1 ++ "].children[" ++ toString q.1 ++ "]")
            match parseNodeRef child with
            | some refId =>
              if nodeIndexHas nodes refId then []
              else
                [{ code := .UNRESOLVED_NODEREF
                   phase := 2
                   level := .hard
                   message := ("NodeRef does not resolve: " ++ child)
                   location := loc }]
            | none =>
              [{ code := .UNRESOLVED_NODEREF
                 phase := 2
                 level := .hard
                 message := ("Invalid NodeRef format: " ++ child)
                 location := loc
                 suggestion := some ("Use format: NodeRef(node.id)") }]))
  -- Circular children references
  let circularErrors := detectCircularChildren nodes
  -- Test scenario references
  let scenarioErrors : List ValidationError :=
    match spec.tests with
    | none => []
    | some t =>
      match t.scenarios with
      | none => []
      | some refs =>
        refs.enum.flatMap (fun p =>
          match parseNodeRef p.2 with
          | some refId =>
            if nodeIndexHas nodes refId then []
            else
              [{ code := .UNRESOLVED_NODEREF
                 phase := 2
                 level := .hard
                 message := ("Scenario reference does not resolve: " ++ p.2)
                 location := ("tests.scenarios[" ++ toString p.1 ++ "]") }]
          | none => [])
  rootErrors ++ childErrors ++ circularErrors ++ scenarioErrors

-- ============================================
-- Phase 4: Evolution (`04-evolution.ts`)
-- ============================================

/-- `${current.basedOn}` in the broken-chain message (`null` prints as
the string `null`). -/
def showBasedOn : Option String → String
  | none => "null"
  | some s => s

/-- The broken-chain error for entry `i` (`current`) following `prev`. -/
def brokenChainError (i : Nat) (current prev : HistoryEntry) : ValidationError :=
  { code := .BROKEN_HISTORY_CHAIN
    phase := 4
    level := .hard
    message := ("History chain broken: " ++ current.version ++ " basedOn "
      ++ showBasedOn current.basedOn ++ ", expected " ++ prev.version)
    location := ("history[" ++ toString i ++ "].basedOn") }

/-- The `for (let i = 1; i < history.length; i++)` chain check. -/
def chainErrors (history : List HistoryEntry) : List ValidationError :=
  (List.range' 1 (history.length - 1)).filterMap (fun i =>
    match history.get? i, history.get? (i - 1) with
    | some current, some previous =>
      if current.basedOn == some previous.version then none
      else some (brokenChainError i current previous)
    | _, _ => none)

/-- Per-migration field validation (`entry.migrations.forEach`). -/
def migrationFieldErrors (entryIndex : Nat) (migrations : List Migration) :
    List ValidationError :=
  migrations.enum.flatMap (fun p =>
    let migration := p.2
    let mLocation := ("history[" ++ toString entryIndex ++ "].migrations[" ++ toString p.1 ++ "]")
    (if migration.id == ("" : String) then
      [{ code := .MIGRATION_MISSING_ID
         phase := 4
         level := .hard
         message := "Migration missing 'id'"
         location := mLocation }]
    else [])
    ++
    (if migration.kind == ("" : String) then
      [{ code := .MIGRATION_MISSING_KIND
         phase := 4
         level := .hard
         message := "Migration missing 'kind'"
         location := mLocation }]
    else if !([("data" : String), "schema", "process"].contains migration.kind) then
      [{ code := .INVALID_MIGRATION_KIND
         phase := 4
         level := .hard
         message := ("Invalid migration kind: " ++ migration.kind)
         location := (mLocation ++ ".kind")
         suggestion := some ("Valid kinds: 'data', 'schema', 'process'") }]
    else [])
    ++
    (match migration.steps with
     | none =>
       [{ code := .MIGRATION_MISSING_STEPS
          phase := 4
          level := .hard
          message := "Migration missing 'steps'"
          location := mLocation }]
     | some _ => []))

/-- `entry.migrations?.some(m => m.id.includes(change.target) ||
m.id.includes(change.field || ''))`. -/
def hasMigrationFor (migrations : List Migration) (change : Change) : Bool :=
  migrations.any (fun m =>
    strContains m.id change.target || strContains m.id (change.field.getD ("")))

/-- The breaking operations requiring a migration. -/
def breakingOps : List String :=
  ["remove-field", "rename-field", "type-change", "remove-node", "rename-node"]

/-- Per-change migration-requirement check (`entry.changes.forEach`). -/
def changeErrors (entryIndex : Nat) (entry : HistoryEntry) : List ValidationError :=
  entry.changes.enum.flatMap (fun p =>
    let change := p.2
    let cLocation := ("history[" ++ toString entryIndex ++ "].changes[" ++ toString p.1 ++ "]")
    (if breakingOps.contains change.op then
      (if !(hasMigrationFor entry.migrations change) && entry.migrations.length == 0 then
        [{ code := .MISSING_MIGRATION
           phase := 4
           level := .hard
           message := ("Breaking change '" ++ change.op ++ "' on '" ++ change.target
             ++ "' requires migration")
           location := cLocation
           suggestion := some ("Add a migration with steps to handle this change") }]
      else [])
    else [])
    ++
    (if change.op == ("add-field" : String) && change.required == some true then
      (if !(hasMigrationFor entry.migrations change) && entry.migrations.length == 0 then
        [{ code := .MISSING_MIGRATION
           phase := 4
           level := .hard
           message := ("Adding required field '" ++ (change.field.getD ("")) ++ "' to '"
             ++ change.target ++ "' requires migration")
           location := cLocation
           suggestion := some ("Add a migration to backfill existing data") }]
      else [])
    else []))

/-- Phase 4 (`validateEvolution`). -/
def validateEvolution (spec : EvoSpec) : List ValidationError :=
  match spec.history with
  | none => []
  | some history =>
    if history.length == 0 then []
    else
      -- First entry must have basedOn: null
      (match history.head? with
       | some first =>
         if first.basedOn == none then []
         else
           [{ code := .INVALID_HISTORY_START
              phase := 4
              level := .hard
              message := "First history entry must have basedOn: null"
              location := "history[0].basedOn" }]
       | none => [])
      ++ chainErrors history
      ++
      -- Current version must match the last entry
      (match history.getLast? with
       | some last =>
         if spec.project.versioning.current == last.version then []
         else
           [{ code := .VERSION_MISMATCH
              phase := 4
              level := .hard
              message := ("Current version " ++ spec.project.versioning.current
                ++ " doesn't match last history version " ++ last.version)
              location := "project.versioning.current" }]
       | none => [])
      ++
      history.enum.flatMap (fun p =>
        migrationFieldErrors p.1 p.2.migrations ++ changeErrors p.1 p.2)

-- ============================================
-- Phase 5: Generation safety (`05-generation.ts`)
-- ============================================

/-- Glob tokens of the translated pattern. -/
inductive GlobTok where
  | globstar
  | star
  | lit (c : Char)

/-- Tokenizes a glob pattern (`**` before `*`, others literal). -/
def globToks : List Char → List GlobTok
  | [] => []
  | '*' :: '*' :: rest => .globstar :: globToks rest
  | '*' :: rest => .star :: globToks rest
  | c :: rest => .lit c :: globToks rest

/-- Fueled matcher for the translated regex: `**` becomes `.*`, `*`
becomes `[^/]*`, and a literal `.` of the pattern stays a regex dot (an
artifact of the source's glob-to-regex translation). -/
def globMatch : Nat → List GlobTok → List Char → Bool
  | 0, _, _ => false
  | _ + 1, [], s => s.isEmpty
  | fuel + 1, .globstar :: ps, s =>
    globMatch fuel ps s || (match s with
      | [] => false
      | _ :: rest => globMatch fuel (.globstar :: ps) rest)
  | fuel + 1, .star :: ps, s =>
    globMatch fuel ps s || (match s with
      | [] => false
      | c :: rest => !(c == '/') && globMatch fuel (.star :: ps) rest)
  | fuel + 1, .lit c :: ps, s =>
    match s with
    | [] => false
    | h :: rest => (h == c || (c == '.' && !(h == '\n'))) && globMatch fuel ps rest

/-- `matchesGlob(path, pattern)`. -/
def matchesGlob (path pattern : String) : Bool :=
  let normPath := (path.toList.map (fun c => if c == '\\' then '/' else c))
  let normPattern := (pattern.toList.map (fun c => if c == '\\' then '/' else c))
  let toks := globToks normPattern
  globMatch (toks.length + normPath.length + 1) toks normPath

/-- `validateZones`. -/
def validateZones (zones : List Zone) : List ValidationError :=
  (zones.enum.foldl
    (fun (acc : List ValidationError × List String) p =>
      let zone := p.2
      let location := ("generation.zones[" ++ toString p.1 ++ "]")
      let errs :=
        (if zone.path == ("" : String) then
          [{ code := .GENERATION_ERROR
             phase := 5
             level := .hard
             message := "Zone missing 'path'"
             location := location }]
        else [])
        ++
        (if zone.mode == ("" : String) then
          [{ code := .GENERATION_ERROR
             phase := 5
             level := .hard
             message := "Zone missing 'mode'"
             location := location }]
        else if !([("overwrite" : String), "anchored", "preserve", "spec-controlled"].contains
            zone.mode) then
          [{ code := .GENERATION_ERROR
             phase := 5
             level := .hard
             message := ("Invalid zone mode: " ++ zone.mode)
             location := (location ++ ".mode")
             suggestion :=
               some ("Valid modes: 'overwrite', 'anchored', 'preserve', 'spec-controlled'") }]
        else [])
        ++
        (if !(zone.path == ("" : String)) && acc.2.contains zone.path then
          [{ code := .OVERLAPPING_ZONES
             phase := 5
             level := .hard
             message := ("Duplicate zone path: " ++ zone.path)
             location := location }]
        else [])
      let seen := if zone.path == ("" : String) then acc.2 else acc.2 ++ [zone.path]
      (acc.1 ++ errs, seen))
    ([], [])).1

/-- `validateHooks`. -/
def validateHooks (hooks : List Hook) (zones : List Zone) : List ValidationError :=
  let overwriteZones :=
    (zones.filter (fun z => z.mode == ("overwrite" : String))).map (fun z => z.path)
  (hooks.enum.foldl
    (fun (acc : List ValidationError × List String) p =>
      let hook := p.2
      let location := ("generation.hooks[" ++ toString p.1 ++ "]")
      let idErrs :=
        if hook.id == ("" : String) then
          [{ code := .GENERATION_ERROR
             phase := 5
             level := .hard
             message := "Hook missing 'id'"
             location := location }]
        else if acc.2.contains hook.id then
          [{ code := .DUPLICATE_HOOK_ID
             phase := 5
             level := .hard
             message := ("Duplicate hook ID: " ++ hook.id)
             location := location }]
        else []
      let seen := if hook.id == ("" : String) then acc.2 else acc.2 ++ [hook.id]
      let locErrs :=
        match hook.location with
        | none =>
          [{ code := .GENERATION_ERROR
             phase := 5
             level := .hard
             message := "Hook missing 'location'"
             location := location }]
        | some l =>
          (if l.file == ("" : String) then
            [{ code := .GENERATION_ERROR
               phase := 5
               level := .hard
               message := "Hook location missing 'file'"
               location := (location ++ ".location") }]
          else [])
          ++
          (if l.anchorStart == ("" : String) || l.anchorEnd == ("" : String) then
            [{ code := .INVALID_HOOK_ANCHORS
               phase := 5
               level := .hard
               message := "Hook location missing 'anchorStart' or 'anchorEnd'"
               location := (location ++ ".location") }]
          else if l.anchorStart == l.anchorEnd then
            [{ code := .INVALID_HOOK_ANCHORS
               phase := 5
               level := .hard
               message := "Hook anchorStart and anchorEnd must be different"
               location := (location ++ ".location") }]
          else [])
          ++
          (if !(l.file == ("" : String)) then
            match overwriteZones.find? (fun zonePath => matchesGlob l.file zonePath) with
            | some zonePath =>
              [{ code := .HOOK_IN_OVERWRITE
                 phase := 5
                 level := .hard
                 message := ("Hook '" ++ hook.id ++ "' is in overwrite zone: " ++ zonePath)
                 location := (location ++ ".location.file")
                 suggestion := some ("Move hook to an anchored zone") }]
            | none => []
          else [])
      (acc.1 ++ idErrs ++ locErrs, seen))
    ([], [])).1

/-- Phase 5 (`validateGeneration`). -/
def validateGeneration (spec : EvoSpec) : List ValidationError :=
  match spec.generation with
  | none => []
  | some gen =>
    (match gen.zones with
     | some zones => validateZones zones
     | none => [])
    ++
    (match gen.hooks with
     | some hooks => validateHooks hooks (gen.zones.getD [])
     | none => [])

-- ============================================
-- Phase 6: Verifiability (`06-verifiability.ts`)
-- ============================================

/-- One required-pipeline check: missing pipeline, or present with an
empty/whitespace `cmd`. -/
def pipeBlock (po : Option Pipeline) (missing empty : ValidationError) :
    List ValidationError :=
  match po with
  | none => [missing]
  | some b =>
    if b.cmd == ("" : String) || strTrim b.cmd == ("" : String) then [empty]
    else []

/-- Required-pipeline errors (the `spec.generation?.pipelines` block). -/
def pipelineErrors (spec : EvoSpec) : List ValidationError :=
  match spec.generation with
  | none => []
  | some gen =>
    match gen.pipelines with
    | none => []
    | some pipelines =>
      pipeBlock pipelines.build
        { code := .MISSING_BUILD_PIPELINE
          phase := 6
          level := .hard
          message := "Missing required 'build' pipeline"
          location := "generation.pipelines" }
        { code := .EMPTY_PIPELINE_CMD
          phase := 6
          level := .hard
          message := "'build' pipeline has empty command"
          location := "generation.pipelines.build.cmd" }
      ++
      pipeBlock pipelines.test
        { code := .MISSING_TEST_PIPELINE
          phase := 6
          level := .hard
          message := "Missing required 'test' pipeline"
          location := "generation.pipelines" }
        { code := .EMPTY_PIPELINE_CMD
          phase := 6
          level := .hard
          message := "'test' pipeline has empty command"
          location := "generation.pipelines.test.cmd" }
      ++
      pipeBlock pipelines.migrate
        { code := .MISSING_MIGRATE_PIPELINE
          phase := 6
          level := .hard
          message := "Missing required 'migrate' pipeline"
          location := "generation.pipelines" }
        { code := .EMPTY_PIPELINE_CMD
          phase := 6
          level := .hard
          message := "'migrate' pipeline has empty command"
          location := "generation.pipelines.migrate.cmd" }

/-- The command ids referenced by one Scenario's `when` clauses (the
`cmd.id` values, added to the covered set as raw values). -/
def scenarioCommandIds (scenario : Node) : List JVal :=
  match (scenario.spec.lookup ("when")) with
  | some (.arr actions) =>
    actions.flatMap (fun action =>
      match jGet action ("command") with
      | some cmd =>
        if jTruthy cmd && jIsObjectType cmd then
          match jGet cmd ("id") with
          | some idv => if jTruthy idv then [idv] else []
          | none => []
        else []
      | none => [])
  | _ => []

/-- The set of commands covered by scenarios (`coveredCommands`). -/
def coveredCommands (spec : EvoSpec) : List JVal :=
  ((spec.domain.nodes.filter (fun n => n.kind == ("Scenario" : String))).flatMap
    scenarioCommandIds)

/-- The soft low-coverage warning for a command id. -/
def lowCoverageError (commandId : String) : ValidationError :=
  { code := .LOW_SCENARIO_COVERAGE
    phase := 6
    level := .soft
    message := ("Command '" ++ commandId ++ "' has no test scenarios")
    location := "domain.nodes"
    suggestion := some ("Add a Scenario that tests " ++ commandId) }

/-- Phase 6 (`validateVerifiability`). -/
def validateVerifiability (spec : EvoSpec) : List ValidationError :=
  let covered := coveredCommands spec
  let commands := spec.domain.nodes.filter (fun n => n.kind == ("Command" : String))
  pipelineErrors spec
  ++ commands.filterMap (fun command =>
      if covered.any (fun v => jEqStr v command.id) then none
      else some (lowCoverageError command.id))

-- ============================================
-- Phase 3: Semantic (`03-semantic.ts`)
-- ============================================

/-- Validation context of Phase 3 (`ValidationContext`): id sets
partitioned by kind plus the node index. -/
structure ValidationContext where
  entityIds : List String
  enumIds : List String
  commandIds : List String
  eventIds : List String
  stepIds : List String
  nodes : List Node

/-- Builds the Phase 3 context from the node sequence (the single
index-building loop of `validateSemantic`). -/
def mkContext (nodes : List Node) : ValidationContext :=
  { entityIds := (nodes.filter (fun n => n.kind == ("Entity" : String))).map (fun n => n.id)
    enumIds := (nodes.filter (fun n => n.kind == ("Enum" : String))).map (fun n => n.id)
    commandIds := (nodes.filter (fun n => n.kind == ("Command" : String))).map (fun n => n.id)
    eventIds := (nodes.filter (fun n => n.kind == ("Event" : String))).map (fun n => n.id)
    stepIds := (nodes.filter (fun n => n.kind == ("Step" : String))).map (fun n => n.id)
    nodes := nodes }

/-- `Object.entries` on an unknown value that passed a
`typeof === 'object'` check (arrays enumerate index/value pairs). -/
def jEntries : JVal → List (String × JVal)
  | .obj fields => fields
  | .arr xs => xs.enum.map (fun p => (toString p.1, p.2))
  | _ => []

/-- Falsiness of a possibly-absent string key (absent or empty). -/
def optStrFalsy : Option String → Bool
  | none => true
  | some s => s == ("" : String)

/-- `id`-set membership for an unknown value (`Set<string>.has`): only
string values can match. -/
def idSetHas (ids : List String) : JVal → Bool
  | .str s => ids.contains s
  | _ => false

/-- The `/^ref\(([^)]+)\)$/` match of entity field types. -/
def parseRefType (s : String) : Option String :=
  if strStarts s ("ref(") && strEnds s (")") then
    let inner := (s.drop 4).dropRight 1
    if !(inner == ("" : String)) && inner.toList.all (fun c => !(c == ')')) then some inner
    else none
  else none

/-- The `/^enum\(([^)]+)\)$/` match (its result is deliberately unused
by the source: enum references are skipped). -/
def parseEnumType (s : String) : Option String :=
  if strStarts s ("enum(") && strEnds s (")") then
    let inner := (s.drop 5).dropRight 1
    if !(inner == ("" : String)) && inner.toList.all (fun c => !(c == ')')) then some inner
    else none
  else none

/-- `validateEntity`.  A non-string `field.type` would crash the
source's `.match` call; such values are modelled as non-matching. -/
def validateEntity (node : Node) (location : String) (ctx : ValidationContext) :
    List ValidationError :=
  match node.spec.lookup ("fields") with
  | some fv =>
    if jTruthy fv && jIsObjectType fv then
      (jEntries fv).flatMap (fun p =>
        let fieldName := p.1
        let fieldDef := p.2
        if !(jTruthy fieldDef && jIsObjectType fieldDef) then
          [{ code := .FIELD_MISSING_TYPE
             phase := 3
             level := .hard
             message := ("Field '" ++ fieldName ++ "' must be an object")
             location := (location ++ ".spec.fields." ++ fieldName) }]
        else
          match jGet fieldDef ("type") with
          | some tv =>
            if !(jTruthy tv) then
              [{ code := .FIELD_MISSING_TYPE
                 phase := 3
                 level := .hard
                 message := ("Field '" ++ fieldName ++ "' missing 'type'")
                 location := (location ++ ".spec.fields." ++ fieldName) }]
            else
              match tv with
              | .str typeStr =>
                (match parseRefType typeStr with
                 | some refId =>
                   if ctx.entityIds.contains refId then []
                   else
                     [{ code := .UNRESOLVED_REF_TYPE
                        phase := 3
                        level := .hard
                        message := ("Referenced entity not found: " ++ refId)
                        location := (location ++ ".spec.fields." ++ fieldName ++ ".type") }]
                 | none => [])
              | _ => []
          | none =>
            [{ code := .FIELD_MISSING_TYPE
               phase := 3
               level := .hard
               message := ("Field '" ++ fieldName ++ "' missing 'type'")
               location := (location ++ ".spec.fields." ++ fieldName) }])
    else
      [{ code := .ENTITY_MISSING_FIELDS
         phase := 3
         level := .hard
         message := "Entity must have 'fields' in spec"
         location := (location ++ ".spec") }]
  | none =>
    [{ code := .ENTITY_MISSING_FIELDS
       phase := 3
       level := .hard
       message := "Entity must have 'fields' in spec"
       location := (location ++ ".spec") }]

/-- `validateCommand`. -/
def validateCommand (node : Node) (location : String) (ctx : ValidationContext) :
    List ValidationError :=
  (match node.spec.lookup ("input") with
   | some v =>
     if jTruthy v && jIsObjectType v then []
     else
       [{ code := .COMMAND_MISSING_INPUT
          phase := 3
          level := .hard
          message := "Command must have 'input' in spec"
          location := (location ++ ".spec") }]
   | none =>
     [{ code := .COMMAND_MISSING_INPUT
        phase := 3
        level := .hard
        message := "Command must have 'input' in spec"
        location := (location ++ ".spec") }])
  ++
  (match node.spec.lookup ("effects") with
   | some effects =>
     if jTruthy effects && jIsObjectType effects then
       (match jGet effects ("emits") with
        | some (.arr emits) =>
          if jTruthy (.arr emits) then
            emits.enum.flatMap (fun p =>
              if idSetHas ctx.eventIds p.2 then []
              else
                [{ code := .UNRESOLVED_EFFECT_EVENT
                   phase := 3
                   level := .hard
                   message := ("Emitted event not found: " ++ jShow p.2)
                   location := (location ++ ".spec.effects.emits[" ++ toString p.1 ++ "]") }])
          else []
        | _ => [])
       ++
       (match jGet effects ("modifies") with
        | some (.arr modifies) =>
          if jTruthy (.arr modifies) then
            modifies.enum.flatMap (fun p =>
              if idSetHas ctx.entityIds p.2 then []
              else
                [{ code := .UNRESOLVED_EFFECT_ENTITY
                   phase := 3
                   level := .hard
                   message := ("Modified entity not found: " ++ jShow p.2)
                   location := (location ++ ".spec.effects.modifies[" ++ toString p.1 ++ "]") }])
          else []
        | _ => [])
     else []
   | none => [])

/-- `validateProcess`. -/
def validateProcess (node : Node) (location : String) (ctx : ValidationContext) :
    List ValidationError :=
  (match node.spec.lookup ("trigger") with
   | some trigger =>
     if !(jTruthy trigger) then
       [{ code := .PROCESS_MISSING_TRIGGER
          phase := 3
          level := .hard
          message := "Process must have 'trigger' in spec"
          location := (location ++ ".spec") }]
     else if idSetHas ctx.commandIds trigger || idSetHas ctx.eventIds trigger then []
     else
       [{ code := .INVALID_PROCESS_TRIGGER
          phase := 3
          level := .hard
          message := ("Process trigger not found: " ++ jShow trigger)
          location := (location ++ ".spec.trigger") }]
   | none =>
     [{ code := .PROCESS_MISSING_TRIGGER
        phase := 3
        level := .hard
        message := "Process must have 'trigger' in spec"
        location := (location ++ ".spec") }])
  ++
  (match node.children with
   | none => []
   | some cs =>
     cs.enum.flatMap (fun p =>
       match p.2 with
       | .inlineNode => []
       | .ref child =>
         match parseNodeRef child with
         | none => []
         | some childId =>
           match nodeIndexGet ctx.nodes childId with
           | none => []
           | some childNode =>
             if childNode.kind == ("Step" : String) then []
             else
               [{ code := .INVALID_PROCESS_CHILDREN
                  phase := 3
                  level := .hard
                  message := ("Process children must be Steps, got: " ++ childNode.kind)
                  location := (location ++ ".children[" ++ toString p.1 ++ "]") }]))

/-- `validateScenario`. -/
def validateScenario (node : Node) (location : String) : List ValidationError :=
  (match node.spec.lookup ("given") with
   | some v =>
     if jTruthy v && jIsArray v then []
     else
       [{ code := .SCENARIO_MISSING_GIVEN
          phase := 3
          level := .hard
          message := "Scenario must have 'given' array in spec"
          location := (location ++ ".spec") }]
   | none =>
     [{ code := .SCENARIO_MISSING_GIVEN
        phase := 3
        level := .hard
        message := "Scenario must have 'given' array in spec"
        location := (location ++ ".spec") }])
  ++
  (match node.spec.lookup ("when") with
   | some v =>
     if jTruthy v && jIsArray v then []
     else
       [{ code := .SCENARIO_MISSING_WHEN
          phase := 3
          level := .hard
          message := "Scenario must have 'when' array in spec"
          location := (location ++ ".spec") }]
   | none =>
     [{ code := .SCENARIO_MISSING_WHEN
        phase := 3
        level := .hard
        message := "Scenario must have 'when' array in spec"
        location := (location ++ ".spec") }])
  ++
  (match node.spec.lookup ("then") with
   | some v =>
     if jTruthy v && jIsArray v then []
     else
       [{ code := .SCENARIO_MISSING_THEN
          phase := 3
          level := .hard
          message := "Scenario must have 'then' array in spec"
          location := (location ++ ".spec") }]
   | none =>
     [{ code := .SCENARIO_MISSING_THEN
        phase := 3
        level := .hard
        message := "Scenario must have 'then' array in spec"
        location := (location ++ ".spec") }])

/-- A required-key-as-array check shared by System (`goals`) and Enum
(`values`). -/
def requiredArrayKey (node : Node) (key : String) (msg location : String) :
    List ValidationError :=
  match node.spec.lookup key with
  | some v =>
    if jTruthy v && jIsArray v then []
    else
      [{ code := .SEMANTIC_ERROR
         phase := 3
         level := .hard
         message := msg
         location := (location ++ ".spec") }]
  | none =>
    [{ code := .SEMANTIC_ERROR
       phase := 3
       level := .hard
       message := msg
       location := (location ++ ".spec") }]

/-- The in-place mutation `if (!contract.level) contract.level = 'hard'`
performed by the contracts loop of `validateNodeSemantic`. -/
def defaultContractLevel (c : Contract) : Contract :=
  if c.level == none then { c with level := some .hard } else c

/-- Applies the contract-level mutation to a node. -/
def applyContractDefaults (node : Node) : Node :=
  { node with contracts := node.contracts.map (fun cs => cs.map defaultContractLevel) }

/-- The contracts validation loop (errors only). -/
def contractErrors (node : Node) (location : String) : List ValidationError :=
  match node.contracts with
  | none => []
  | some cs =>
    cs.enum.flatMap (fun p =>
      let contract := p.2
      if optStrFalsy contract.type && optStrFalsy contract.invariant
          && optStrFalsy contract.temporal && optStrFalsy contract.rule then
        [{ code := .INVALID_CONTRACT
           phase := 3
           level := .hard
           message := "Contract must have type, invariant, temporal, or rule"
           location := (location ++ ".contracts[" ++ toString p.1 ++ "]") }]
      else [])

/-- `validateNodeSemantic`, with the source's in-place mutation of the
node's contracts made explicit in the returned node. -/
def validateNodeSemanticRun (node : Node) (location : String) (ctx : ValidationContext) :
    List ValidationError × Node :=
  let kindErrors : List ValidationError :=
    if node.kind == ("System" : String) then
      requiredArrayKey node ("goals") ("System must have 'goals' array in spec") location
    else if node.kind == ("Entity" : String) then
      validateEntity node location ctx
    else if node.kind == ("Enum" : String) then
      requiredArrayKey node ("values") ("Enum must have 'values' array in spec") location
    else if node.kind == ("Command" : String) then
      validateCommand node location ctx
    else if node.kind == ("Event" : String) then
      (match node.spec.lookup ("payload") with
       | some v =>
         if jTruthy v && jIsObjectType v then []
         else
           [{ code := .EVENT_MISSING_PAYLOAD
              phase := 3
              level := .hard
              message := "Event must have 'payload' in spec"
              location := (location ++ ".spec") }]
       | none =>
         [{ code := .EVENT_MISSING_PAYLOAD
            phase := 3
            level := .hard
            message := "Event must have 'payload' in spec"
            location := (location ++ ".spec") }])
    else if node.kind == ("Query" : String) then
      (match node.spec.lookup ("input") with
       | some v =>
         if jTruthy v && jIsObjectType v then []
         else
           [{ code := .QUERY_MISSING_INPUT
              phase := 3
              level := .hard
              message := "Query must have 'input' in spec"
              location := (location ++ ".spec") }]
       | none =>
         [{ code := .QUERY_MISSING_INPUT
            phase := 3
            level := .hard
            message := "Query must have 'input' in spec"
            location := (location ++ ".spec") }])
      ++
      (match node.spec.lookup ("output") with
       | some v =>
         if jTruthy v && jIsObjectType v then []
         else
           [{ code := .QUERY_MISSING_OUTPUT
              phase := 3
              level := .hard
              message := "Query must have 'output' in spec"
              location := (location ++ ".spec") }]
       | none =>
         [{ code := .QUERY_MISSING_OUTPUT
            phase := 3
            level := .hard
            message := "Query must have 'output' in spec"
            location := (location ++ ".spec") }])
    else if node.kind == ("Process" : String) then
      validateProcess node location ctx
    else if node.kind == ("Step" : String) then
      (match node.spec.lookup ("action") with
       | some (.str s) =>
         if s == ("" : String) then
           [{ code := .SEMANTIC_ERROR
              phase := 3
              level := .hard
              message := "Step must have 'action' string in spec"
              location := (location ++ ".spec") }]
         else []
       | some _ =>
         [{ code := .SEMANTIC_ERROR
            phase := 3
            level := .hard
            message := "Step must have 'action' string in spec"
            location := (location ++ ".spec") }]
       | none =>
         [{ code := .SEMANTIC_ERROR
            phase := 3
            level := .hard
            message := "Step must have 'action' string in spec"
            location := (location ++ ".spec") }])
    else if node.kind == ("Scenario" : String) then
      validateScenario node location
    else []
  (kindErrors ++ contractErrors node location, applyContractDefaults node)

/-- `validateSemantic`, returning both the findings and the document as
mutated by the contracts loop. -/
def validateSemanticRun (spec : EvoSpec) : List ValidationError × EvoSpec :=
  let ctx := mkContext spec.domain.nodes
  let results := spec.domain.nodes.enum.map (fun p =>
    validateNodeSemanticRun p.2 ("domain.nodes[" ++ toString p.1 ++ "]") ctx)
  (results.flatMap (fun r => r.1),
   { spec with domain := { nodes := results.map (fun r => r.2) } })

/-- Phase 3's error list. -/
def validateSemantic (spec : EvoSpec) : List ValidationError :=
  (validateSemanticRun spec).1

-- ============================================
-- Phase 1: Structural (`01-structural.ts`), over raw parsed values
-- ============================================

/-- `VALID_KINDS`. -/
def VALID_KINDS : List String :=
  ["System", "Module", "Entity", "Enum", "Value", "Interface", "Command",
   "Event", "Query", "Process", "Step", "Policy", "Scenario", "Contract"]

/-- `VALID_KINDS.join(', ')` used in the suggestion text. -/
def validKindsJoined : String :=
  String.intercalate (", ") VALID_KINDS

/-- `Set<unknown>` membership with JavaScript `SameValueZero` semantics:
primitives compare structurally; distinct objects/arrays in a parsed
document tree are never identical. -/
def jSameValue : JVal → JVal → Bool
  | .str a, .str b => a == b
  | .num a, .num b => a == b
  | .bool a, .bool b => a == b
  | .null, .null => true
  | _, _ => false

/-- `VALID_KINDS.includes(n.kind as string)` for an unknown value. -/
def isValidKindVal : JVal → Bool
  | .str s => VALID_KINDS.contains s
  | _ => false

/-- `validateNode` of Phase 1; returns its errors and the updated
`seenIds` set. -/
def validateStructuralNode (node : JVal) (location : String) (seenIds : List JVal) :
    List ValidationError × List JVal :=
  if !(jTruthy node && jIsObjectType node) then
    ([{ code := .INVALID_NODE
        phase := 1
        level := .hard
        message := "Node must be an object"
        location := location }], seenIds)
  else
    let kindErrors : List ValidationError :=
      if !(jHasKey node ("kind")) then
        [{ code := .MISSING_NODE_KIND
           phase := 1
           level := .hard
           message := "Node missing 'kind'"
           location := location }]
      else if !(isValidKindVal ((jGet node ("kind")).getD .null)) then
        [{ code := .INVALID_NODE_KIND
           phase := 1
           level := .hard
           message := ("Invalid node kind: " ++ jShow ((jGet node ("kind")).getD .null))
           location := (location ++ ".kind")
           suggestion := some ("Valid kinds: " ++ validKindsJoined) }]
      else []
    let idResult : List ValidationError × List JVal :=
      if !(jHasKey node ("id")) then
        ([{ code := .MISSING_NODE_ID
            phase := 1
            level := .hard
            message := "Node missing 'id'"
            location := location }], seenIds)
      else
        let idv := (jGet node ("id")).getD .null
        let fmtErrors :=
          if !(isValidId (jShow idv)) then
            [{ code := .INVALID_NODE_ID
               phase := 1
               level := .hard
               message := ("Invalid node ID format: " ++ jShow idv)
               location := (location ++ ".id")
               suggestion := some ("ID must match pattern: ^[a-z][a-z0-9_.-]*$") }]
          else []
        if seenIds.any (fun s => jSameValue s idv) then
          (fmtErrors ++
            [{ code := .DUPLICATE_NODE_ID
               phase := 1
               level := .hard
               message := ("Duplicate node ID: " ++ jShow idv)
               location := (location ++ ".id") }], seenIds)
        else (fmtErrors, seenIds ++ [idv])
    let specErrors : List ValidationError :=
      if !(jHasKey node ("spec")) then
        [{ code := .MISSING_NODE_SPEC
           phase := 1
           level := .hard
           message := "Node missing 'spec'"
           location := location }]
      else
        match (jGet node ("spec")).getD .null with
        | .obj _ => []
        | .arr _ => []
        | _ =>
          -- `typeof n.spec !== 'object' || n.spec === null`
          [{ code := .MISSING_NODE_SPEC
             phase := 1
             level := .hard
             message := "'spec' must be an object"
             location := (location ++ ".spec") }]
    let childrenErrors : List ValidationError :=
      if jHasKey node ("children") then
        if jIsArray ((jGet node ("children")).getD .null) then []
        else
          [{ code := .STRUCTURAL_ERROR
             phase := 1
             level := .hard
             message := "'children' must be an array"
             location := (location ++ ".children") }]
      else []
    (kindErrors ++ idResult.1 ++ specErrors ++ childrenErrors, idResult.2)

/-- Phase 1 (`validateStructural`), over the raw parsed document.
Property access on a non-object (e.g. `project.id` when `project` is a
string) yields `undefined` in JavaScript and is modelled by `jGet`
returning `none`. -/
def validateStructural (spec : JVal) : List ValidationError :=
  if !(jTruthy spec && jIsObjectType spec) then
    [{ code := .STRUCTURAL_ERROR
       phase := 1
       level := .hard
       message := "Spec must be an object"
       location := "" }]
  else
    -- Check spec version
    (if !(jHasKey spec ("spec")) then
      [{ code := .MISSING_SPEC_VERSION
         phase := 1
         level := .hard
         message := "Missing 'spec' field"
         location := ""
         suggestion := some ("Add 'spec: sysconst/v1' at the root") }]
    else if !(jEqStr ((jGet spec ("spec")).getD .null) ("sysconst/v1")) then
      [{ code := .INVALID_SPEC_VERSION
         phase := 1
         level := .hard
         message := ("Invalid spec version: " ++ jShow ((jGet spec ("spec")).getD .null))
         location := "spec"
         suggestion := some ("Use 'spec: sysconst/v1'") }]
    else [])
    ++
    -- Check project
    (if !(jHasKey spec ("project")) then
      [{ code := .MISSING_PROJECT
         phase := 1
         level := .hard
         message := "Missing 'project' field"
         location := "" }]
    else
      let project := (jGet spec ("project")).getD .null
      (if !(jTruthyOpt (jGet project ("id"))) then
        [{ code := .MISSING_PROJECT_ID
           phase := 1
           level := .hard
           message := "Missing 'project.id'"
           location := "project" }]
      else [])
      ++
      (if !(jTruthyOpt (jGet project ("versioning"))) then
        [{ code := .MISSING_VERSIONING
           phase := 1
           level := .hard
           message := "Missing 'project.versioning'"
           location := "project" }]
      else
        let versioning := (jGet project ("versioning")).getD .null
        if !(jTruthyOpt (jGet versioning ("current"))) then
          [{ code := .MISSING_CURRENT_VERSION
             phase := 1
             level := .hard
             message := "Missing 'project.versioning.current'"
             location := "project.versioning" }]
        else []))
    ++
    -- Check structure
    (if !(jHasKey spec ("structure")) then
      [{ code := .MISSING_STRUCTURE
         phase := 1
         level := .hard
         message := "Missing 'structure' field"
         location := "" }]
    else
      let st := (jGet spec ("structure")).getD .null
      if !(jTruthyOpt (jGet st ("root"))) then
        [{ code := .MISSING_STRUCTURE_ROOT
           phase := 1
           level := .hard
           message := "Missing 'structure.root'"
           location := "structure" }]
      else [])
    ++
    -- Check domain
    (if !(jHasKey spec ("domain")) then
      [{ code := .MISSING_DOMAIN
         phase := 1
         level := .hard
         message := "Missing 'domain' field"
         location := "" }]
    else
      let domain := (jGet spec ("domain")).getD .null
      match jGet domain ("nodes") with
      | some (.arr nodes) =>
        if jTruthy (.arr nodes) then
          (nodes.enum.foldl
            (fun (acc : List ValidationError × List JVal) p =>
              let r := validateStructuralNode p.2
                ("domain.nodes[" ++ toString p.1 ++ "]") acc.2
              (acc.1 ++ r.1, r.2))
            ([], [])).1
        else
          [{ code := .MISSING_DOMAIN_NODES
             phase := 1
             level := .hard
             message := "Missing or invalid 'domain.nodes'"
             location := "domain" }]
      | _ =>
        [{ code := .MISSING_DOMAIN_NODES
           phase := 1
           level := .hard
           message := "Missing or invalid 'domain.nodes'"
           location := "domain" }])

-- ============================================
-- Encoding of a typed document to its raw form
-- ============================================

/-- Appends an optional key (absent TypeScript fields are absent keys). -/
def optKey (key : String) : Option JVal → List (String × JVal)
  | none => []
  | some v => [(key, v)]

/-- Encodes a contract clause. -/
def encodeContract (c : Contract) : JVal :=
  .obj (optKey ("type") (c.type.map .str)
    ++ optKey ("invariant") (c.invariant.map .str)
    ++ optKey ("temporal") (c.temporal.map .str)
    ++ optKey ("rule") (c.rule.map .str)
    ++ optKey ("level") (c.level.map (fun l =>
        .str (match l with | .hard => "hard" | .soft => "soft"))))

/-- Encodes a children entry (inline nodes are opaque objects to the
phases, which only test `typeof child === 'string'`). -/
def encodeChild : ChildEntry → JVal
  | .ref s => .str s
  | .inlineNode => .obj []

/-- Encodes a node. -/
def encodeNode (n : Node) : JVal :=
  .obj ([(("kind" : String), JVal.str n.kind), (("id" : String), JVal.str n.id),
    (("spec" : String), JVal.obj n.spec)]
    ++ optKey ("children") (n.children.map (fun cs => .arr (cs.map encodeChild)))
    ++ optKey ("contracts") (n.contracts.map (fun cs => .arr (cs.map encodeContract))))

/-- Encodes a change entry. -/
def encodeChange (c : Change) : JVal :=
  .obj ([(("op" : String), JVal.str c.op), (("target" : String), JVal.str c.target)]
    ++ optKey ("field") (c.field.map .str)
    ++ optKey ("required") (c.required.map .bool))

/-- Encodes a migration. -/
def encodeMigration (m : Migration) : JVal :=
  .obj ([(("id" : String), JVal.str m.id), (("kind" : String), JVal.str m.kind)]
    ++ optKey ("steps") (m.steps.map .arr))

/-- Encodes a history entry. -/
def encodeHistoryEntry (h : HistoryEntry) : JVal :=
  .obj [(("version" : String), JVal.str h.version),
    (("basedOn" : String), match h.basedOn with | none => JVal.null | some s => JVal.str s),
    (("changes" : String), JVal.arr (h.changes.map encodeChange)),
    (("migrations" : String), JVal.arr (h.migrations.map encodeMigration))]

/-- Encodes a zone. -/
def encodeZone (z : Zone) : JVal :=
  .obj [(("path" : String), JVal.str z.path), (("mode" : String), JVal.str z.mode)]

/-- Encodes a hook. -/
def encodeHook (h : Hook) : JVal :=
  .obj ([(("id" : String), JVal.str h.id)]
    ++ optKey ("location") (h.location.map (fun l =>
        .obj [(("file" : String), JVal.str l.file),
          (("anchorStart" : String), JVal.str l.anchorStart),
          (("anchorEnd" : String), JVal.str l.anchorEnd)])))

/-- Encodes the pipelines record. -/
def encodePipelines (p : Pipelines) : JVal :=
  .obj (optKey ("build") (p.build.map (fun x => .obj [(("cmd" : String), JVal.str x.cmd)]))
    ++ optKey ("test") (p.test.map (fun x => .obj [(("cmd" : String), JVal.str x.cmd)]))
    ++ optKey ("e2e") (p.e2e.map (fun x => .obj [(("cmd" : String), JVal.str x.cmd)]))
    ++ optKey ("migrate") (p.migrate.map (fun x => .obj [(("cmd" : String), JVal.str x.cmd)]))
    ++ optKey ("lint") (p.lint.map (fun x => .obj [(("cmd" : String), JVal.str x.cmd)])))

/-- Encodes the generation section. -/
def encodeGeneration (g : Generation) : JVal :=
  .obj (optKey ("zones") (g.zones.map (fun zs => .arr (zs.map encodeZone)))
    ++ optKey ("hooks") (g.hooks.map (fun hs => .arr (hs.map encodeHook)))
    ++ optKey ("pipelines") (g.pipelines.map encodePipelines))

/-- Encodes a typed document to the raw value Phase 1 receives. -/
def encodeSpec (d : EvoSpec) : JVal :=
  .obj ([(("spec" : String), JVal.str ("sysconst/v1")),
    (("project" : String), JVal.obj [(("id" : String), JVal.str d.project.id),
      (("versioning" : String), JVal.obj [(("strategy" : String), JVal.str ("semver")),
        (("current" : String), JVal.str d.project.versioning.current)])]),
    (("structure" : String),
      JVal.obj [(("root" : String), JVal.str d.structure_.root)]),
    (("domain" : String),
      JVal.obj [(("nodes" : String), JVal.arr (d.domain.nodes.map encodeNode))])]
    ++ optKey ("generation") (d.generation.map encodeGeneration)
    ++ optKey ("history") (d.history.map (fun hs => .arr (hs.map encodeHistoryEntry)))
    ++ optKey ("tests") (d.tests.map (fun t =>
        .obj (optKey ("scenarios") (t.scenarios.map (fun ss => .arr (ss.map .str)))))))

-- ============================================
-- Pipeline orchestrator (`validate` in `index.ts`)
-- ============================================

/-- `hasHardErrors`. -/
def hasHardErrors (errors : List ValidationError) : Bool :=
  errors.any (fun e => e.level == Level.hard)

/-- `buildResult`. -/
def buildResult (errors : List ValidationError) (phase : Nat) (strict : Bool) :
    ValidationResult :=
  let hardErrors := errors.filter (fun e => e.level == Level.hard)
  let softErrors := errors.filter (fun e => e.level == Level.soft)
  if strict then
    { ok := errors.length == 0, errors := errors, warnings := [], phase := phase }
  else
    { ok := hardErrors.length == 0, errors := hardErrors, warnings := softErrors, phase := phase }

/-- Phase 6 block of `validate` (`cur` is the last phase recorded so far). -/
def validateStep6 (spec : EvoSpec) (phases : List Nat) (strict : Bool)
    (acc : List ValidationError) (cur : Nat) : ValidationResult × EvoSpec :=
  if phases.contains 6 then
    (buildResult (acc ++ validateVerifiability spec) 6 strict, spec)
  else (buildResult acc cur strict, spec)

/-- Phase 5 block of `validate`. -/
def validateStep5 (spec : EvoSpec) (phases : List Nat) (strict : Bool)
    (acc : List ValidationError) (cur : Nat) : ValidationResult × EvoSpec :=
  if phases.contains 5 then
    let errors := validateGeneration spec
    if hasHardErrors errors then (buildResult (acc ++ errors) 5 strict, spec)
    else validateStep6 spec phases strict (acc ++ errors) 5
  else validateStep6 spec phases strict acc cur

/-- Phase 4 block of `validate`. -/
def validateStep4 (spec : EvoSpec) (phases : List Nat) (strict : Bool)
    (acc : List ValidationError) (cur : Nat) : ValidationResult × EvoSpec :=
  if phases.contains 4 then
    let errors := validateEvolution spec
    if hasHardErrors errors then (buildResult (acc ++ errors) 4 strict, spec)
    else validateStep5 spec phases strict (acc ++ errors) 4
  else validateStep5 spec phases strict acc cur

/-- Phase 3 block of `validate`: the document mutated by the semantic
phase is the one later phases receive. -/
def validateStep3 (spec : EvoSpec) (phases : List Nat) (strict : Bool)
    (acc : List ValidationError) (cur : Nat) : ValidationResult × EvoSpec :=
  if phases.contains 3 then
    let r := validateSemanticRun spec
    if hasHardErrors r.1 then (buildResult (acc ++ r.1) 3 strict, r.2)
    else validateStep4 r.2 phases strict (acc ++ r.1) 3
  else validateStep4 spec phases strict acc cur

/-- Phase 2 block of `validate`. -/
def validateStep2 (spec : EvoSpec) (phases : List Nat) (strict : Bool)
    (acc : List ValidationError) (cur : Nat) : ValidationResult × EvoSpec :=
  if phases.contains 2 then
    let errors := validateReferential spec
    if hasHardErrors errors then (buildResult (acc ++ errors) 2 strict, spec)
    else validateStep3 spec phases strict (acc ++ errors) 2
  else validateStep3 spec phases strict acc cur

/-- Phase 1 block of `validate`: the structural phase runs on the raw
form of the document. -/
def validateStep1 (spec : EvoSpec) (phases : List Nat) (strict : Bool) :
    ValidationResult × EvoSpec :=
  if phases.contains 1 then
    let errors := validateStructural (encodeSpec spec)
    if hasHardErrors errors then (buildResult errors 1 strict, spec)
    else validateStep2 spec phases strict errors 1
  else validateStep2 spec phases strict [] 1

/-- The full pipeline run: the result together with the document state
after the run (the input as mutated by Phase 3, if Phase 3 executed). -/
def validateRun (spec : EvoSpec) (options : ValidateOptions) :
    ValidationResult × EvoSpec :=
  validateStep1 spec options.phases options.strict

/-- `validate`. -/
def validate (spec : EvoSpec) (options : ValidateOptions) : ValidationResult :=
  (validateRun spec options).1

/-- The document value after `validate` returns (observing the in-place
mutation performed by Phase 3). -/
def docAfterValidate (spec : EvoSpec) (options : ValidateOptions) : EvoSpec :=
  (validateRun spec options).2

-- ============================================
-- Basic orchestrator lemmas
-- ============================================

lemma validateStep6_shape (s : EvoSpec) (phs : List Nat) (strict : Bool)
    (acc : List ValidationError) (cur : Nat) :
    ∃ errs ph, (validateStep6 s phs strict acc cur).1 = buildResult errs ph strict := by
  cases h : phs.contains 6 <;>
    exact ⟨_, _, by simp only [validateStep6, h, Bool.false_eq_true, reduceIte]; rfl⟩

lemma validateStep5_shape (s : EvoSpec) (phs : List Nat) (strict : Bool)
    (acc : List ValidationError) (cur : Nat) :
    ∃ errs ph, (validateStep5 s phs strict acc cur).1 = buildResult errs ph strict := by
  cases h : phs.contains 5
  · simp only [validateStep5, h, Bool.false_eq_true, reduceIte]
    exact validateStep6_shape ..
  · cases hh : hasHardErrors (validateGeneration s)
    · simp only [validateStep5, h, hh, Bool.false_eq_true, reduceIte]
      exact validateStep6_shape ..
    · exact ⟨_, _, by simp only [validateStep5, h, hh, Bool.false_eq_true, reduceIte]; rfl⟩

lemma validateStep4_shape (s : EvoSpec) (phs : List Nat) (strict : Bool)
    (acc : List ValidationError) (cur : Nat) :
    ∃ errs ph, (validateStep4 s phs strict acc cur).1 = buildResult errs ph strict := by
  cases h : phs.contains 4
  · simp only [validateStep4, h, Bool.false_eq_true, reduceIte]
    exact validateStep5_shape ..
  · cases hh : hasHardErrors (validateEvolution s)
    · simp only [validateStep4, h, hh, Bool.false_eq_true, reduceIte]
      exact validateStep5_shape ..
    · exact ⟨_, _, by simp only [validateStep4, h, hh, Bool.false_eq_true, reduceIte]; rfl⟩

lemma validateStep3_shape (s : EvoSpec) (phs : List Nat) (strict : Bool)
    (acc : List ValidationError) (cur : Nat) :
    ∃ errs ph, (validateStep3 s phs strict acc cur).1 = buildResult errs ph strict := by
  cases h : phs.contains 3
  · simp only [validateStep3, h, Bool.false_eq_true, reduceIte]
    exact validateStep4_shape ..
  · cases hh : hasHardErrors (validateSemanticRun s).1
    · simp only [validateStep3, h, hh, Bool.false_eq_true, reduceIte]
      exact validateStep4_shape ..
    · exact ⟨_, _, by simp only [validateStep3, h, hh, Bool.false_eq_true, reduceIte]; rfl⟩

lemma validateStep2_shape (s : EvoSpec) (phs : List Nat) (strict : Bool)
    (acc : List ValidationError) (cur : Nat) :
    ∃ errs ph, (validateStep2 s phs strict acc cur).1 = buildResult errs ph strict := by
  cases h : phs.contains 2
  · simp only [validateStep2, h, Bool.false_eq_true, reduceIte]
    exact validateStep3_shape ..
  · cases hh : hasHardErrors (validateReferential s)
    · simp only [validateStep2, h, hh, Bool.false_eq_true, reduceIte]
      exact validateStep3_shape ..
    · exact ⟨_, _, by simp only [validateStep2, h, hh, Bool.false_eq_true, reduceIte]; rfl⟩

lemma validate_shape (s : EvoSpec) (opts : ValidateOptions) :
    ∃ errs ph, validate s opts = buildResult errs ph opts.strict := by
  unfold validate validateRun
  cases h : opts.phases.contains 1
  · simp only [validateStep1, h, Bool.false_eq_true, reduceIte]
    exact validateStep2_shape ..
  · cases hh : hasHardErrors (validateStructural (encodeSpec s))
    · simp only [validateStep1, h, hh, Bool.false_eq_true, reduceIte]
      exact validateStep2_shape ..
    · exact ⟨_, _, by simp only [validateStep1, h, hh, Bool.false_eq_true, reduceIte]; rfl⟩

/-- Claim C2: in non-strict mode the result is ok iff zero hard errors
were collected, hard findings are returned in `errors` and soft findings
in `warnings`; in strict mode the result is ok iff there are zero
findings of any level, all findings are returned in `errors`, and
`warnings` is empty.  (Every `validate` run returns a `buildResult` of
the collected findings.) -/
theorem claim_C2 (errors : List ValidationError) (phase : Nat) (doc : EvoSpec)
    (opts : ValidateOptions) :
    ((buildResult errors phase false).ok = true ↔
      errors.countP (fun e => e.level == Level.hard) = 0)
    ∧ (buildResult errors phase false).errors =
        errors.filter (fun e => e.level == Level.hard)
    ∧ (buildResult errors phase false).warnings =
        errors.filter (fun e => e.level == Level.soft)
    ∧ ((buildResult errors phase true).ok = true ↔ errors = [])
    ∧ (buildResult errors phase true).errors = errors
    ∧ (buildResult errors phase true).warnings = []
    ∧ (∃ errs ph, validate doc opts = buildResult errs ph opts.strict) := by
  refine ⟨?_, ?_, ?_, ?_, ?_, ?_, validate_shape doc opts⟩ <;>
    simp [buildResult, List.countP_eq_length_filter, List.length_eq_zero]

-- ============================================
-- Claim C6: Phase 1 and `project.versioning.strategy`
-- ============================================

/-- A raw document that is fully valid except that
`project.versioning` lacks the required `strategy` key. -/
def rawNoStrategy : JVal :=
  .obj [(("spec" : String), JVal.str ("sysconst/v1")),
    (("project" : String), JVal.obj [(("id" : String), JVal.str ("my.app")),
      (("versioning" : String), JVal.obj [(("current" : String), JVal.str ("1.0.0"))])]),
    (("structure" : String), JVal.obj [(("root" : String), JVal.str ("NodeRef(system.root)"))]),
    (("domain" : String), JVal.obj [(("nodes" : String), JVal.arr [
      JVal.obj [(("kind" : String), JVal.str ("System")),
        (("id" : String), JVal.str ("system.root")),
        (("spec" : String),
          JVal.obj [(("goals" : String), JVal.arr [JVal.str ("demo")])])]])])]

/-- Claim C6 (code bug): Phase 1 accepts a document whose
`project.versioning` lacks `strategy` with no error at all, although the
claim (and the project's own validator documentation) requires a hard
error for the missing field.  The structural phase checks
`project.versioning.current` but never `strategy`. -/
theorem claim_C6_no_strategy_check : validateStructural rawNoStrategy = [] := by decide

-- ============================================
-- Claims C7 and C8: Phase 4
-- ============================================

lemma strToList_append (a b : String) : (a ++ b).toList = a.toList ++ b.toList := rfl

lemma strContains_of_parts (hay needle : String) (u v : List Char)
    (h : hay.toList = u ++ (needle.toList ++ v)) : strContains hay needle = true := by
  unfold strContains
  rw [List.any_eq_true]
  refine ⟨u.length, List.mem_range.mpr ?_, ?_⟩
  · have hl : hay.toList.length = u.length + (needle.toList.length + v.length) := by
      rw [h, List.length_append, List.length_append]
    omega
  · rw [h, List.drop_left, List.take_left, beq_self_eq_true]

/-- Claim C7: if `history` is absent or empty, Phase 4 returns no
errors; otherwise it reports a hard error when the first entry's
`basedOn` is not null, a hard broken-chain error naming both versions
for each entry whose `basedOn` differs from the preceding entry's
`version`, and a hard version-mismatch error when
`project.versioning.current` differs from the last entry's `version`. -/
theorem claim_C7 (spec : EvoSpec) :
    ((spec.history = none ∨ spec.history = some []) → validateEvolution spec = [])
    ∧ (∀ first rest, spec.history = some (first :: rest) → first.basedOn ≠ none →
        ({ code := .INVALID_HISTORY_START, phase := 4, level := .hard,
           message := "First history entry must have basedOn: null",
           location := "history[0].basedOn" } : ValidationError) ∈ validateEvolution spec)
    ∧ (∀ history i current previous, spec.history = some history →
        1 ≤ i → history.get? i = some current → history.get? (i - 1) = some previous →
        current.basedOn ≠ some previous.version →
        brokenChainError i current previous ∈ validateEvolution spec)
    ∧ (∀ history lastE, spec.history = some history → history.getLast? = some lastE →
        spec.project.versioning.current ≠ lastE.version →
        ({ code := .VERSION_MISMATCH, phase := 4, level := .hard,
           message := ("Current version " ++ spec.project.versioning.current
             ++ " doesn't match last history version " ++ lastE.version),
           location := "project.versioning.current" } : ValidationError)
          ∈ validateEvolution spec) := by
  refine ⟨?_, ?_, ?_, ?_⟩
  · rintro (h | h) <;> simp [validateEvolution, h]
  · intro first rest h hne
    have hb : (first.basedOn == none) = false := by
      cases hb : first.basedOn with
      | none => exact absurd hb hne
      | some v => rfl
    simp [validateEvolution, h, hb]
  · intro history i current previous h h1 hget hprev hne
    have hlen : history.length ≠ 0 := by
      intro hz
      rw [List.get?_eq_none.mpr (by omega)] at hget
      exact Option.noConfusion hget
    have hmem : brokenChainError i current previous ∈ chainErrors history := by
      unfold chainErrors
      rw [List.mem_filterMap]
      refine ⟨i, ?_, ?_⟩
      · rw [List.mem_range']
        have hilt : i < history.length := by
          by_contra hc
          rw [List.get?_eq_none.mpr (by omega)] at hget
          exact Option.noConfusion hget
        exact ⟨i - 1, by omega, by omega⟩
      · rw [hget, hprev]
        simp [beq_eq_false_iff_ne, hne]
    have hlz : (history.length == 0) = false := by simpa using hlen
    simp only [validateEvolution, h, hlz, Bool.false_eq_true, reduceIte, List.mem_append]
    exact Or.inl (Or.inl (Or.inr hmem))
  · intro history lastE h hlast hne
    have hlen : history.length ≠ 0 := by
      intro hz
      rw [List.length_eq_zero] at hz
      rw [hz] at hlast
      exact Option.noConfusion hlast
    have hlz : (history.length == 0) = false := by simpa using hlen
    have hb : (spec.project.versioning.current == lastE.version) = false := by
      simpa [beq_eq_false_iff_ne] using hne
    simp only [validateEvolution, h, hlz, Bool.false_eq_true, reduceIte, hlast, hb,
      List.mem_append]
    exact Or.inl (Or.inr (List.mem_singleton.mpr rfl))

/-- The migration-present condition of the claim: a migration matching
the change by id, or mere non-empty presence of the entry's migrations
list (which is what the source's check amounts to). -/
def migrationPresent (entry : HistoryEntry) (change : Change) : Bool :=
  hasMigrationFor entry.migrations change || !(entry.migrations.length == 0)

/-- The two-entry history document of the Phase 4 missing-migration
scenario. -/
def exDocC8 : EvoSpec :=
  { project := { id := "my.app", versioning := { current := "1.1.0" } }
    structure_ := { root := "NodeRef(system.root)" }
    domain := { nodes := [
      { kind := "System", id := "system.root",
        spec := [(("goals" : String), JVal.arr [JVal.str ("demo")])] }] }
    history := some [
      { version := "1.0.0", basedOn := none },
      { version := "1.1.0", basedOn := some ("1.0.0"),
        changes := [{ op := "remove-field", target := "entity.x", field := some ("y") }],
        migrations := [] }] }

/-- Claim C8: a Change with a breaking operation (or a required
`add-field`) in an entry with no migration satisfying the
migration-present condition yields a hard `MISSING_MIGRATION` error at
the change's location naming the offending change; and the two-entry
scenario document yields exactly that one error. -/
theorem claim_C8 :
    (∀ (spec : EvoSpec) history index entry cIndex change,
      spec.history = some history →
      history.get? index = some entry →
      entry.changes.get? cIndex = some change →
      (breakingOps.contains change.op = true
        ∨ (change.op = "add-field" ∧ change.required = some true)) →
      migrationPresent entry change = false →
      ∃ e ∈ validateEvolution spec, e.code = .MISSING_MIGRATION ∧ e.level = .hard ∧
        e.location = ("history[" ++ toString index ++ "].changes[" ++ toString cIndex ++ "]")
        ∧ strContains e.message change.target = true)
    ∧ validateEvolution exDocC8 =
        [{ code := .MISSING_MIGRATION, phase := 4, level := .hard,
           message := "Breaking change 'remove-field' on 'entity.x' requires migration",
           location := "history[1].changes[0]",
           suggestion := some ("Add a migration with steps to handle this change") }] := by
  constructor
  · intro spec history index entry cIndex change h hent hch hop hmp
    have hlen : history.length ≠ 0 := by
      intro hz
      rw [List.get?_eq_none.mpr (by omega)] at hent
      exact Option.noConfusion hent
    have hlz : (history.length == 0) = false := by simpa using hlen
    unfold migrationPresent at hmp
    have hnomig1 : hasMigrationFor entry.migrations change = false := by
      cases hm : hasMigrationFor entry.migrations change
      · rfl
      · rw [hm] at hmp; simp at hmp
    have hnomig2 : (entry.migrations.length == 0) = true := by
      cases hz : entry.migrations.length == 0
      · rw [hz] at hmp; simp at hmp
      · rfl
    -- the target error is in the per-entry changes part
    have hcmem : (cIndex, change) ∈ entry.changes.enum :=
      List.mk_mem_enum_iff_getElem?.mpr (by rw [← List.get?_eq_getElem?]; exact hch)
    have hmem : ∃ e ∈ changeErrors index entry, e.code = .MISSING_MIGRATION
        ∧ e.level = .hard
        ∧ e.location =
            ("history[" ++ toString index ++ "].changes[" ++ toString cIndex ++ "]")
        ∧ strContains e.message change.target = true := by
      unfold changeErrors
      rcases hop with hbr | ⟨hadd, hreq⟩
      · refine ⟨
          { code := .MISSING_MIGRATION, phase := 4, level := .hard,
            message := ("Breaking change '" ++ change.op ++ "' on '" ++ change.target
              ++ "' requires migration"),
            location :=
              ("history[" ++ toString index ++ "].changes[" ++ toString cIndex ++ "]"),
            suggestion := some ("Add a migration with steps to handle this change") },
          List.mem_flatMap.mpr ⟨(cIndex, change), hcmem, ?_⟩, rfl, rfl, rfl, ?_⟩
        · simp only [hbr, reduceIte, hnomig1, hnomig2, Bool.not_false, Bool.and_self,
            Bool.true_and, List.mem_append]
          exact Or.inl (List.mem_singleton.mpr rfl)
        · exact strContains_of_parts _ _
            (("Breaking change '" ++ change.op ++ "' on '").toList)
            (("' requires migration").toList) (by simp [strToList_append, List.append_assoc])
      · have hnb : breakingOps.contains change.op = false := by
          rw [hadd]; rfl
        refine ⟨
          { code := .MISSING_MIGRATION, phase := 4, level := .hard,
            message := ("Adding required field '" ++ (change.field.getD ("")) ++ "' to '"
              ++ change.target ++ "' requires migration"),
            location :=
              ("history[" ++ toString index ++ "].changes[" ++ toString cIndex ++ "]"),
            suggestion := some ("Add a migration to backfill existing data") },
          List.mem_flatMap.mpr ⟨(cIndex, change), hcmem, ?_⟩, rfl, rfl, rfl, ?_⟩
        · simp only [hnb, Bool.false_eq_true, reduceIte, hnomig1, hnomig2, hadd, hreq,
            Bool.not_false, Bool.and_self, Bool.true_and, List.nil_append, List.mem_append]
          simp
        · exact strContains_of_parts _ _
            (("Adding required field '" ++ (change.field.getD ("")) ++ "' to '").toList)
            (("' requires migration").toList) (by simp [strToList_append, List.append_assoc])
    rcases hmem with ⟨e, hin, hprops⟩
    refine ⟨e, ?_, hprops⟩
    simp only [validateEvolution, h, hlz, Bool.false_eq_true, reduceIte, List.mem_append]
    refine Or.inr (List.mem_flatMap.mpr ⟨(index, entry),
      List.mk_mem_enum_iff_getElem?.mpr (by rw [← List.get?_eq_getElem?]; exact hent),
      List.mem_append.mpr (Or.inr hin)⟩)
  · decide

-- ============================================
-- Claim C9: Phase 6 scenario coverage
-- ============================================

lemma string_mid_inj (p s : String) {a b : String}
    (h : p ++ a ++ s = p ++ b ++ s) : a = b := by
  have hl : p.toList ++ (a.toList ++ s.toList) = p.toList ++ (b.toList ++ s.toList) := by
    have := congrArg String.toList h
    simpa [strToList_append, List.append_assoc] using this
  have hab : a.toList = b.toList := by
    have h2 := List.append_cancel_left hl
    exact List.append_cancel_right h2
  cases a with
  | mk da =>
    cases b with
    | mk db =>
      have hd : da = db := by simpa [String.toList] using hab
      rw [hd]

lemma lowCoverageError_inj {a b : String}
    (h : lowCoverageError a = lowCoverageError b) : a = b :=
  string_mid_inj ("Command '") ("' has no test scenarios")
    (congrArg ValidationError.message h)

lemma mem_pipe_block (po : Option Pipeline) (a b : ValidationError) :
    ∀ e ∈ pipeBlock po a b, e = a ∨ e = b := by
  intro e he
  unfold pipeBlock at he
  split at he
  · exact Or.inl (List.mem_singleton.mp he)
  · split at he
    · exact Or.inr (List.mem_singleton.mp he)
    · simp at he

lemma mem_pipelineErrors (spec : EvoSpec) :
    ∀ e ∈ pipelineErrors spec, e.level = Level.hard ∧
      (e.code = .MISSING_BUILD_PIPELINE ∨ e.code = .MISSING_TEST_PIPELINE
        ∨ e.code = .MISSING_MIGRATE_PIPELINE ∨ e.code = .EMPTY_PIPELINE_CMD) := by
  intro e he
  unfold pipelineErrors at he
  split at he
  · simp at he
  · split at he
    · simp at he
    · simp only [List.mem_append] at he
      rcases he with (he | he) | he
      · rcases mem_pipe_block _ _ _ e he with h | h <;> subst h <;>
          exact ⟨rfl, by simp⟩
      · rcases mem_pipe_block _ _ _ e he with h | h <;> subst h <;>
          exact ⟨rfl, by simp⟩
      · rcases mem_pipe_block _ _ _ e he with h | h <;> subst h <;>
          exact ⟨rfl, by simp⟩

lemma cov_count (covered : List JVal) (i : String) : ∀ nodes : List Node,
    ((nodes.filter (fun n => n.kind == ("Command" : String))).filterMap
      (fun c => if covered.any (fun v => jEqStr v c.id) then none
                else some (lowCoverageError c.id))).countP
        (fun e => e == lowCoverageError i)
    = nodes.countP (fun n => n.kind == ("Command" : String) && (n.id == i)
        && !(covered.any (fun v => jEqStr v i)))
  | [] => rfl
  | n :: ns => by
    cases hk : (n.kind == ("Command" : String)) with
    | false =>
      simp only [List.filter_cons, hk, Bool.false_eq_true, reduceIte, List.countP_cons,
        Bool.false_and, Bool.and_eq_true, cond_false]
      rw [cov_count covered i ns]
      simp [hk]
    | true =>
      simp only [List.filter_cons, hk, reduceIte, List.filterMap_cons]
      cases hc : covered.any (fun v => jEqStr v n.id) with
      | true =>
        simp only [reduceIte]
        rw [cov_count covered i ns, List.countP_cons]
        by_cases hi : (n.id == i) = true
        · have : n.id = i := eq_of_beq hi
          rw [this] at hc
          simp [hk, hi, hc]
        · simp at hi
          simp [hk, hi]
      | false =>
        simp only [Bool.false_eq_true, reduceIte]
        rw [List.countP_cons, List.countP_cons, cov_count covered i ns]
        by_cases hi : (n.id == i) = true
        · have hni : n.id = i := eq_of_beq hi
          rw [hni] at hc
          simp [hk, hi, hc, hni]
        · have hne : lowCoverageError n.id ≠ lowCoverageError i := by
            intro hcontra
            have hni : ¬ n.id = i := by simpa using hi
            exact hni (lowCoverageError_inj hcontra)
          have hbe : (lowCoverageError n.id == lowCoverageError i) = false := by
            simpa [beq_eq_false_iff_ne] using hne
          simp at hi
          simp [hk, hi, hbe]

/-- Claim C9: Phase 6 checks every Command node against the command ids
referenced by Scenario `when` clauses regardless of whether
`generation.pipelines` is present; each uncovered Command yields exactly
one `LOW_SCENARIO_COVERAGE` finding at level soft, and the phase's only
hard errors are the missing/empty-pipeline ones. -/
theorem claim_C9 (spec : EvoSpec) :
    (∀ i : String,
      (validateVerifiability spec).countP (fun e => e == lowCoverageError i) =
        spec.domain.nodes.countP (fun n => n.kind == ("Command" : String) && (n.id == i)
          && !((coveredCommands spec).any (fun v => jEqStr v i))))
    ∧ (validateVerifiability spec).filter
        (fun e => e.code == ErrorCode.LOW_SCENARIO_COVERAGE)
      = (validateVerifiability { spec with generation := none }).filter
          (fun e => e.code == ErrorCode.LOW_SCENARIO_COVERAGE)
    ∧ (∀ e ∈ validateVerifiability spec, e.code = .LOW_SCENARIO_COVERAGE →
        e.level = .soft)
    ∧ (∀ e ∈ validateVerifiability spec, e.level = .hard →
        e.code = .MISSING_BUILD_PIPELINE ∨ e.code = .MISSING_TEST_PIPELINE
        ∨ e.code = .MISSING_MIGRATE_PIPELINE ∨ e.code = .EMPTY_PIPELINE_CMD) := by
  have hsplit : validateVerifiability spec = pipelineErrors spec ++
      ((spec.domain.nodes.filter (fun n => n.kind == ("Command" : String))).filterMap
        (fun c => if (coveredCommands spec).any (fun v => jEqStr v c.id) then none
                  else some (lowCoverageError c.id))) := rfl
  refine ⟨?_, ?_, ?_, ?_⟩
  · intro i
    rw [hsplit, List.countP_append, cov_count]
    have hz : (pipelineErrors spec).countP (fun e => e == lowCoverageError i) = 0 := by
      rw [List.countP_eq_zero]
      intro e he hc
      have : e = lowCoverageError i := eq_of_beq (by simpa using hc)
      have hcode := (mem_pipelineErrors spec e he).2
      rw [this] at hcode
      simp [lowCoverageError] at hcode
    omega
  · have hgen : validateVerifiability { spec with generation := none } =
        ((spec.domain.nodes.filter (fun n => n.kind == ("Command" : String))).filterMap
          (fun c => if (coveredCommands spec).any (fun v => jEqStr v c.id) then none
                    else some (lowCoverageError c.id))) := rfl
    rw [hsplit, hgen, List.filter_append]
    have hz : (pipelineErrors spec).filter
        (fun e => e.code == ErrorCode.LOW_SCENARIO_COVERAGE) = [] := by
      rw [List.filter_eq_nil_iff]
      intro e he
      have hcode := (mem_pipelineErrors spec e he).2
      rcases hcode with h | h | h | h <;> simp [h]
    rw [hz, List.nil_append]
  · intro e he hcode
    rw [hsplit] at he
    rcases List.mem_append.mp he with he | he
    · have := (mem_pipelineErrors spec e he).2
      rw [hcode] at this
      simp at this
    · rcases List.mem_filterMap.mp he with ⟨c, _, hf⟩
      by_cases hc : ((coveredCommands spec).any (fun v => jEqStr v c.id)) = true
      · rw [hc] at hf; simp at hf
      · simp only [Bool.not_eq_true] at hc
        rw [hc] at hf
        simp at hf
        rw [← hf]
        rfl
  · intro e he hl
    rw [hsplit] at he
    rcases List.mem_append.mp he with he | he
    · exact (mem_pipelineErrors spec e he).2
    · rcases List.mem_filterMap.mp he with ⟨c, _, hf⟩
      by_cases hc : ((coveredCommands spec).any (fun v => jEqStr v c.id)) = true
      · rw [hc] at hf; simp at hf
      · simp only [Bool.not_eq_true] at hc
        rw [hc] at hf
        simp at hf
        rw [← hf] at hl
        exact absurd hl (by simp [lowCoverageError])

-- ============================================
-- Example documents and witnesses
-- ============================================

/-- A minimal valid document: one System node, no history, no
generation section. -/
def minimalDoc : EvoSpec :=
  { project := { id := "my.app", versioning := { current := "1.0.0" } }
    structure_ := { root := "NodeRef(system.root)" }
    domain := { nodes := [
      { kind := "System", id := "system.root",
        spec := [(("goals" : String), JVal.arr [JVal.str ("demo")])] }] } }

/-- First history entry of the C7 witness document (bad `basedOn`). -/
def exHist1 : HistoryEntry := { version := "1.0.0", basedOn := some ("0.9.0") }

/-- Second history entry of the C7 witness document (broken chain). -/
def exHist2 : HistoryEntry := { version := "1.1.0", basedOn := some ("9.9.9") }

/-- A document violating all three history-chain rules at once. -/
def exDocC7 : EvoSpec :=
  { project := { id := "my.app", versioning := { current := "7.7.7" } }
    structure_ := { root := "NodeRef(system.root)" }
    domain := { nodes := [
      { kind := "System", id := "system.root",
        spec := [(("goals" : String), JVal.arr [JVal.str ("demo")])] }] }
    history := some [exHist1, exHist2] }

theorem claim_C7_witness :
    validateEvolution minimalDoc = []
    ∧ ({ code := .INVALID_HISTORY_START, phase := 4, level := .hard,
         message := "First history entry must have basedOn: null",
         location := "history[0].basedOn" } : ValidationError) ∈ validateEvolution exDocC7
    ∧ brokenChainError 1 exHist2 exHist1 ∈ validateEvolution exDocC7
    ∧ ({ code := .VERSION_MISMATCH, phase := 4, level := .hard,
         message := ("Current version " ++ "7.7.7"
           ++ " doesn't match last history version " ++ "1.1.0"),
         location := "project.versioning.current" } : ValidationError)
        ∈ validateEvolution exDocC7 :=
  ⟨(claim_C7 minimalDoc).1 (Or.inl rfl),
   (claim_C7 exDocC7).2.1 exHist1 [exHist2] rfl (by simp [exHist1]),
   (claim_C7 exDocC7).2.2.1 [exHist1, exHist2] 1 exHist2 exHist1 rfl (by omega) rfl rfl
     (by simp [exHist1, exHist2]),
   (claim_C7 exDocC7).2.2.2 [exHist1, exHist2] exHist2 rfl rfl (by simp [exHist2]; decide)⟩

/-- The breaking change of the C8 scenario. -/
def exChangeC8 : Change := { op := "remove-field", target := "entity.x", field := some ("y") }

/-- Second history entry of the C8 scenario document. -/
def exEntryC8 : HistoryEntry :=
  { version := "1.1.0", basedOn := some ("1.0.0"),
    changes := [exChangeC8], migrations := [] }

theorem claim_C8_witness :
    ∃ e ∈ validateEvolution exDocC8, e.code = .MISSING_MIGRATION ∧ e.level = .hard ∧
      e.location = ("history[" ++ toString (1 : Nat) ++ "].changes["
        ++ toString (0 : Nat) ++ "]")
      ∧ strContains e.message exChangeC8.target = true :=
  claim_C8.1 exDocC8 [{ version := "1.0.0", basedOn := none }, exEntryC8] 1 exEntryC8 0
    exChangeC8 rfl rfl rfl (Or.inl (by decide)) (by decide)

/-- A document with one Command node and no Scenario covering it. -/
def exDocC9 : EvoSpec :=
  { project := { id := "my.app", versioning := { current := "1.0.0" } }
    structure_ := { root := "NodeRef(system.root)" }
    domain := { nodes := [
      { kind := "System", id := "system.root",
        spec := [(("goals" : String), JVal.arr [JVal.str ("demo")])] },
      { kind := "Command", id := "cmd.x",
        spec := [(("input" : String), JVal.obj [])] }] } }

theorem claim_C9_witness :
    (validateVerifiability exDocC9).countP
        (fun e => e == lowCoverageError ("cmd.x")) = 1
    ∧ ∀ e ∈ validateVerifiability exDocC9, e.code = .LOW_SCENARIO_COVERAGE →
        e.level = .soft :=
  ⟨((claim_C9 exDocC9).1 ("cmd.x")).trans (by decide),
   (claim_C9 exDocC9).2.2.1⟩

-- ============================================
-- Claim C5: Phase 2 reference resolution
-- ============================================

/-- Claim C5: every symbolic reference — the parsed `structure.root`
reference, every parsed `children` entry, and every parsed
`tests.scenarios` entry — that does not resolve in the node index yields
a hard Phase 2 error at the reference's location; additionally a root
resolving to a non-System node yields a hard `INVALID_ROOT_KIND`
error. -/
theorem claim_C5 (spec : EvoSpec) :
    (∀ rootId, parseNodeRef spec.structure_.root = some rootId →
      nodeIndexGet spec.domain.nodes rootId = none →
      ∃ e ∈ validateReferential spec, e.code = .UNRESOLVED_ROOT ∧ e.level = .hard ∧
        e.location = "structure.root")
    ∧ (∀ rootId rootNode, parseNodeRef spec.structure_.root = some rootId →
      nodeIndexGet spec.domain.nodes rootId = some rootNode →
      rootNode.kind ≠ "System" →
      ∃ e ∈ validateReferential spec, e.code = .INVALID_ROOT_KIND ∧ e.level = .hard ∧
        e.location = "structure.root")
    ∧ (∀ i node cs j s refId, spec.domain.nodes.get? i = some node →
      node.children = some cs → cs.get? j = some (.ref s) →
      parseNodeRef s = some refId → nodeIndexHas spec.domain.nodes refId = false →
      ∃ e ∈ validateReferential spec, e.code = .UNRESOLVED_NODEREF ∧ e.level = .hard ∧
        e.location = ("domain.nodes[" ++ toString i ++ "].children[" ++ toString j ++ "]"))
    ∧ (∀ t refs k r refId, spec.tests = some t → t.scenarios = some refs →
      refs.get? k = some r → parseNodeRef r = some refId →
      nodeIndexHas spec.domain.nodes refId = false →
      ∃ e ∈ validateReferential spec, e.code = .UNRESOLVED_NODEREF ∧ e.level = .hard ∧
        e.location = ("tests.scenarios[" ++ toString k ++ "]")) := by
  refine ⟨?_, ?_, ?_, ?_⟩
  · intro rootId hparse hget
    refine ⟨
      { code := .UNRESOLVED_ROOT, phase := 2, level := .hard,
        message := ("Root node not found: " ++ rootId),
        location := "structure.root" }, ?_, rfl, rfl, rfl⟩
    unfold validateReferential
    simp only [hparse, hget, List.mem_append]
    exact Or.inl (Or.inl (Or.inl (List.mem_singleton.mpr rfl)))
  · intro rootId rootNode hparse hget hkind
    have hk : (rootNode.kind == ("System" : String)) = false := by
      simpa [beq_eq_false_iff_ne] using hkind
    refine ⟨
      { code := .INVALID_ROOT_KIND, phase := 2, level := .hard,
        message := ("Root node must be System, got: " ++ rootNode.kind),
        location := "structure.root" }, ?_, rfl, rfl, rfl⟩
    unfold validateReferential
    simp only [hparse, hget, hk, Bool.false_eq_true, reduceIte, List.mem_append]
    exact Or.inl (Or.inl (Or.inl (List.mem_singleton.mpr rfl)))
  · intro i node cs j s refId hnode hcs href hparse hhas
    refine ⟨
      { code := .UNRESOLVED_NODEREF, phase := 2, level := .hard,
        message := ("NodeRef does not resolve: " ++ s),
        location :=
          ("domain.nodes[" ++ toString i ++ "].children[" ++ toString j ++ "]") },
      ?_, rfl, rfl, rfl⟩
    unfold validateReferential
    simp only [List.mem_append]
    refine Or.inl (Or.inl (Or.inr (List.mem_flatMap.mpr ⟨(i, node),
      List.mk_mem_enum_iff_getElem?.mpr (by rw [← List.get?_eq_getElem?]; exact hnode),
      ?_⟩)))
    simp only [hcs]
    refine List.mem_flatMap.mpr ⟨(j, .ref s),
      List.mk_mem_enum_iff_getElem?.mpr (by rw [← List.get?_eq_getElem?]; exact href),
      ?_⟩
    simp only [hparse, hhas, Bool.false_eq_true, reduceIte]
    exact List.mem_singleton.mpr rfl
  · intro t refs k r refId ht hs href hparse hhas
    refine ⟨
      { code := .UNRESOLVED_NODEREF, phase := 2, level := .hard,
        message := ("Scenario reference does not resolve: " ++ r),
        location := ("tests.scenarios[" ++ toString k ++ "]") },
      ?_, rfl, rfl, rfl⟩
    unfold validateReferential
    simp only [ht, hs, List.mem_append]
    refine Or.inr (List.mem_flatMap.mpr ⟨(k, r),
      List.mk_mem_enum_iff_getElem?.mpr (by rw [← List.get?_eq_getElem?]; exact href),
      ?_⟩)
    simp only [hparse, hhas, Bool.false_eq_true, reduceIte]
    exact List.mem_singleton.mpr rfl

/-- A document exercising unresolved root, child and scenario
references. -/
def exDocC5a : EvoSpec :=
  { project := { id := "my.app", versioning := { current := "1.0.0" } }
    structure_ := { root := "NodeRef(system.gone)" }
    domain := { nodes := [
      { kind := "System", id := "system.root",
        spec := [(("goals" : String), JVal.arr [JVal.str ("demo")])],
        children := some [.ref ("NodeRef(node.gone)")] }] }
    tests := some { scenarios := some ["NodeRef(scn.gone)"] } }

/-- A document whose root reference resolves to a non-System node. -/
def exDocC5b : EvoSpec :=
  { project := { id := "my.app", versioning := { current := "1.0.0" } }
    structure_ := { root := "NodeRef(module.root)" }
    domain := { nodes := [
      { kind := "Module", id := "module.root", spec := [] }] } }

theorem claim_C5_witness :
    (∃ e ∈ validateReferential exDocC5a, e.code = .UNRESOLVED_ROOT ∧ e.level = .hard ∧
      e.location = "structure.root")
    ∧ (∃ e ∈ validateReferential exDocC5b, e.code = .INVALID_ROOT_KIND ∧
        e.level = .hard ∧ e.location = "structure.root")
    ∧ (∃ e ∈ validateReferential exDocC5a, e.code = .UNRESOLVED_NODEREF ∧
        e.level = .hard ∧
        e.location = ("domain.nodes[" ++ toString (0 : Nat) ++ "].children["
          ++ toString (0 : Nat) ++ "]"))
    ∧ (∃ e ∈ validateReferential exDocC5a, e.code = .UNRESOLVED_NODEREF ∧
        e.level = .hard ∧
        e.location = ("tests.scenarios[" ++ toString (0 : Nat) ++ "]")) :=
  ⟨(claim_C5 exDocC5a).1 ("system.gone") rfl rfl,
   (claim_C5 exDocC5b).2.1 ("module.root")
     { kind := "Module", id := "module.root", spec := [] } rfl rfl (by decide),
   (claim_C5 exDocC5a).2.2.1 0
     { kind := "System", id := "system.root",
       spec := [(("goals" : String), JVal.arr [JVal.str ("demo")])],
       children := some [.ref ("NodeRef(node.gone)")] }
     [.ref ("NodeRef(node.gone)")] 0 ("NodeRef(node.gone)") ("node.gone")
     rfl rfl rfl rfl (by decide),
   (claim_C5 exDocC5a).2.2.2 { scenarios := some ["NodeRef(scn.gone)"] }
     ["NodeRef(scn.gone)"] 0 ("NodeRef(scn.gone)") ("scn.gone")
     rfl rfl rfl rfl (by decide)⟩

-- ============================================
-- Claim C3: the validator and document mutation
-- ============================================

lemma map_enumFrom_snd (f : α → β) : ∀ (n : Nat) (l : List α),
    (List.enumFrom n l).map (fun p => f p.2) = l.map f
  | _, [] => rfl
  | n, a :: l => by
    simp only [List.enumFrom, List.map_cons, List.map_cons]
    rw [map_enumFrom_snd f (n + 1) l]

lemma map_enum_snd (f : α → β) (l : List α) :
    l.enum.map (fun p => f p.2) = l.map f :=
  map_enumFrom_snd f 0 l

/-- The document component returned by the semantic phase is the input
with every contract clause's absent `level` defaulted to `hard`. -/
lemma validateSemanticRun_doc (spec : EvoSpec) :
    (validateSemanticRun spec).2 =
      { spec with domain := { nodes := spec.domain.nodes.map applyContractDefaults } } := by
  have h : List.map (fun (r : List ValidationError × Node) => r.2)
      (List.map (fun p => validateNodeSemanticRun p.2
        ("domain.nodes[" ++ toString p.1 ++ "]") (mkContext spec.domain.nodes))
        spec.domain.nodes.enum)
      = List.map applyContractDefaults spec.domain.nodes := by
    rw [List.map_map]
    exact map_enum_snd applyContractDefaults spec.domain.nodes
  unfold validateSemanticRun
  dsimp only
  rw [h]

lemma validateStep6_doc (s : EvoSpec) (phs : List Nat) (strict : Bool)
    (acc : List ValidationError) (cur : Nat) :
    (validateStep6 s phs strict acc cur).2 = s := by
  cases h : phs.contains 6 <;>
    simp only [validateStep6, h, Bool.false_eq_true, reduceIte]

lemma validateStep5_doc (s : EvoSpec) (phs : List Nat) (strict : Bool)
    (acc : List ValidationError) (cur : Nat) :
    (validateStep5 s phs strict acc cur).2 = s := by
  cases h : phs.contains 5
  · simp only [validateStep5, h, Bool.false_eq_true, reduceIte]
    exact validateStep6_doc ..
  · cases hh : hasHardErrors (validateGeneration s)
    · simp only [validateStep5, h, hh, Bool.false_eq_true, reduceIte]
      exact validateStep6_doc ..
    · simp only [validateStep5, h, hh, Bool.false_eq_true, reduceIte]

lemma validateStep4_doc (s : EvoSpec) (phs : List Nat) (strict : Bool)
    (acc : List ValidationError) (cur : Nat) :
    (validateStep4 s phs strict acc cur).2 = s := by
  cases h : phs.contains 4
  · simp only [validateStep4, h, Bool.false_eq_true, reduceIte]
    exact validateStep5_doc ..
  · cases hh : hasHardErrors (validateEvolution s)
    · simp only [validateStep4, h, hh, Bool.false_eq_true, reduceIte]
      exact validateStep5_doc ..
    · simp only [validateStep4, h, hh, Bool.false_eq_true, reduceIte]

lemma validateStep3_doc (s : EvoSpec) (phs : List Nat) (strict : Bool)
    (acc : List ValidationError) (cur : Nat) :
    (validateStep3 s phs strict acc cur).2 = s
      ∨ (validateStep3 s phs strict acc cur).2 = (validateSemanticRun s).2 := by
  cases h : phs.contains 3
  · simp only [validateStep3, h, Bool.false_eq_true, reduceIte]
    exact Or.inl (validateStep4_doc ..)
  · cases hh : hasHardErrors (validateSemanticRun s).1
    · simp only [validateStep3, h, hh, Bool.false_eq_true, reduceIte]
      exact Or.inr (validateStep4_doc ..)
    · simp only [validateStep3, h, hh, Bool.false_eq_true, reduceIte]
      simp

lemma validateStep2_doc (s : EvoSpec) (phs : List Nat) (strict : Bool)
    (acc : List ValidationError) (cur : Nat) :
    (validateStep2 s phs strict acc cur).2 = s
      ∨ (validateStep2 s phs strict acc cur).2 = (validateSemanticRun s).2 := by
  cases h : phs.contains 2
  · simp only [validateStep2, h, Bool.false_eq_true, reduceIte]
    exact validateStep3_doc ..
  · cases hh : hasHardErrors (validateReferential s)
    · simp only [validateStep2, h, hh, Bool.false_eq_true, reduceIte]
      exact validateStep3_doc ..
    · simp only [validateStep2, h, hh, Bool.false_eq_true, reduceIte]
      simp

lemma docAfterValidate_cases (s : EvoSpec) (opts : ValidateOptions) :
    docAfterValidate s opts = s
      ∨ docAfterValidate s opts = (validateSemanticRun s).2 := by
  unfold docAfterValidate validateRun
  cases h : opts.phases.contains 1
  · simp only [validateStep1, h, Bool.false_eq_true, reduceIte]
    exact validateStep2_doc ..
  · cases hh : hasHardErrors (validateStructural (encodeSpec s))
    · simp only [validateStep1, h, hh, Bool.false_eq_true, reduceIte]
      exact validateStep2_doc ..
    · simp only [validateStep1, h, hh, Bool.false_eq_true, reduceIte]
      simp

/-- A valid document with a contract clause whose `level` is absent. -/
def exDocC3 : EvoSpec :=
  { project := { id := "my.app", versioning := { current := "1.0.0" } }
    structure_ := { root := "NodeRef(system.root)" }
    domain := { nodes := [
      { kind := "System", id := "system.root",
        spec := [(("goals" : String), JVal.arr [JVal.str ("demo")])],
        contracts := some [{ invariant := some ("x > 0"), level := none }] }] } }

/-- Claim C3 counterexample: running the full pipeline on a document
with a level-less contract clause returns with the document changed —
Phase 3 set the clause's `level` to `hard` in place. -/
theorem claim_C3_counterexample : docAfterValidate exDocC3 {} ≠ exDocC3 := by
  intro h
  have hproj := congrArg (fun d => d.domain.nodes.map (fun n => n.contracts)) h
  exact absurd hproj (by decide)

/-- Claim C3 (amended): validation leaves the document unchanged except
that Phase 3 (when it runs) assigns `level := hard` to every contract
clause whose `level` is absent; all other fields of the document, of
every node, and of every contract clause are unchanged. -/
theorem claim_C3_amended (spec : EvoSpec) (opts : ValidateOptions) :
    (docAfterValidate spec opts = spec ∨
      docAfterValidate spec opts =
        { spec with domain := { nodes := spec.domain.nodes.map applyContractDefaults } })
    ∧ (∀ n, (applyContractDefaults n).kind = n.kind ∧ (applyContractDefaults n).id = n.id
        ∧ (applyContractDefaults n).spec = n.spec
        ∧ (applyContractDefaults n).children = n.children)
    ∧ (∀ c, (defaultContractLevel c).type = c.type
        ∧ (defaultContractLevel c).invariant = c.invariant
        ∧ (defaultContractLevel c).temporal = c.temporal
        ∧ (defaultContractLevel c).rule = c.rule
        ∧ ((c.level = none ∧ (defaultContractLevel c).level = some .hard)
            ∨ (defaultContractLevel c).level = c.level)) := by
  refine ⟨?_, ?_, ?_⟩
  · rcases docAfterValidate_cases spec opts with h | h
    · exact Or.inl h
    · rw [validateSemanticRun_doc] at h
      exact Or.inr h
  · intro n
    exact ⟨rfl, rfl, rfl, rfl⟩
  · intro c
    unfold defaultContractLevel
    cases hl : c.level with
    | none => simp
    | some l => simp [hl]

-- ============================================
-- Claim C1: orchestrator short-circuiting
-- ============================================

/-- The document the later phases observe: mutated by Phase 3 when
Phase 3 is selected. -/
def docAfter3 (spec : EvoSpec) (phases : List Nat) : EvoSpec :=
  if phases.contains 3 then (validateSemanticRun spec).2 else spec

/-- The error list each phase computes during a run with the given
phase selection. -/
def phaseErrors (spec : EvoSpec) (phases : List Nat) (p : Nat) : List ValidationError :=
  if p = 1 then validateStructural (encodeSpec spec)
  else if p = 2 then validateReferential spec
  else if p = 3 then (validateSemanticRun spec).1
  else if p = 4 then validateEvolution (docAfter3 spec phases)
  else if p = 5 then validateGeneration (docAfter3 spec phases)
  else if p = 6 then validateVerifiability (docAfter3 spec phases)
  else []

/-- All findings collected by the phases `1..p` that are selected, in
execution order. -/
def collectThrough (spec : EvoSpec) (phases : List Nat) (p : Nat) : List ValidationError :=
  ((List.range' 1 p).filter (fun k => phases.contains k)).flatMap
    (phaseErrors spec phases)

lemma flatMap_filter (p : α → Bool) (f : α → List β) : ∀ l : List α,
    (l.filter p).flatMap f = l.flatMap (fun a => if p a then f a else [])
  | [] => rfl
  | a :: l => by
    cases h : p a <;>
      simp [List.filter_cons, h, List.flatMap_cons, flatMap_filter p f l]

lemma run6 (s : EvoSpec) (phs : List Nat) (strict : Bool) (acc : List ValidationError)
    (cur : Nat) :
    validateStep6 s phs strict acc cur
      = (buildResult
          (acc ++ (if phs.contains 6 = true then validateVerifiability s else []))
          (if phs.contains 6 = true then 6 else cur) strict, s) := by
  cases h : phs.contains 6
  · have hm : ¬ ((6 : Nat) ∈ phs) := by simpa using h
    simp [validateStep6, h, hm]
  · have hm : ((6 : Nat) ∈ phs) := by simpa using h
    simp [validateStep6, h, hm]

lemma run5 (s : EvoSpec) (phs : List Nat) (strict : Bool) (acc : List ValidationError)
    (cur : Nat)
    (hok : phs.contains 5 = true → hasHardErrors (validateGeneration s) = false) :
    validateStep5 s phs strict acc cur
      = validateStep6 s phs strict
          (acc ++ (if phs.contains 5 = true then validateGeneration s else []))
          (if phs.contains 5 = true then 5 else cur) := by
  cases h : phs.contains 5
  · have hm : ¬ ((5 : Nat) ∈ phs) := by simpa using h
    simp [validateStep5, h, hm]
  · have hm : ((5 : Nat) ∈ phs) := by simpa using h
    simp [validateStep5, h, hm, hok h]

lemma run4 (s : EvoSpec) (phs : List Nat) (strict : Bool) (acc : List ValidationError)
    (cur : Nat)
    (hok : phs.contains 4 = true → hasHardErrors (validateEvolution s) = false) :
    validateStep4 s phs strict acc cur
      = validateStep5 s phs strict
          (acc ++ (if phs.contains 4 = true then validateEvolution s else []))
          (if phs.contains 4 = true then 4 else cur) := by
  cases h : phs.contains 4
  · have hm : ¬ ((4 : Nat) ∈ phs) := by simpa using h
    simp [validateStep4, h, hm]
  · have hm : ((4 : Nat) ∈ phs) := by simpa using h
    simp [validateStep4, h, hm, hok h]

lemma run3 (s : EvoSpec) (phs : List Nat) (strict : Bool) (acc : List ValidationError)
    (cur : Nat)
    (hok : phs.contains 3 = true → hasHardErrors (validateSemanticRun s).1 = false) :
    validateStep3 s phs strict acc cur
      = validateStep4 (docAfter3 s phs) phs strict
          (acc ++ (if phs.contains 3 = true then (validateSemanticRun s).1 else []))
          (if phs.contains 3 = true then 3 else cur) := by
  cases h : phs.contains 3
  · have hm : ¬ ((3 : Nat) ∈ phs) := by simpa using h
    simp [validateStep3, docAfter3, h, hm]
  · have hm : ((3 : Nat) ∈ phs) := by simpa using h
    simp [validateStep3, docAfter3, h, hm, hok h]

lemma run2 (s : EvoSpec) (phs : List Nat) (strict : Bool) (acc : List ValidationError)
    (cur : Nat)
    (hok : phs.contains 2 = true → hasHardErrors (validateReferential s) = false) :
    validateStep2 s phs strict acc cur
      = validateStep3 s phs strict
          (acc ++ (if phs.contains 2 = true then validateReferential s else []))
          (if phs.contains 2 = true then 2 else cur) := by
  cases h : phs.contains 2
  · have hm : ¬ ((2 : Nat) ∈ phs) := by simpa using h
    simp [validateStep2, h, hm]
  · have hm : ((2 : Nat) ∈ phs) := by simpa using h
    simp [validateStep2, h, hm, hok h]

lemma run1 (s : EvoSpec) (phs : List Nat) (strict : Bool)
    (hok : phs.contains 1 = true →
      hasHardErrors (validateStructural (encodeSpec s)) = false) :
    validateStep1 s phs strict
      = validateStep2 s phs strict
          (if phs.contains 1 = true then validateStructural (encodeSpec s) else [])
          1 := by
  cases h : phs.contains 1
  · have hm : ¬ ((1 : Nat) ∈ phs) := by simpa using h
    simp [validateStep1, h, hm]
  · have hm : ((1 : Nat) ∈ phs) := by simpa using h
    simp [validateStep1, h, hm, hok h]

lemma stop2 (s : EvoSpec) (phs : List Nat) (strict : Bool) (acc : List ValidationError)
    (cur : Nat) (h : phs.contains 2 = true)
    (hh : hasHardErrors (validateReferential s) = true) :
    validateStep2 s phs strict acc cur
      = (buildResult (acc ++ validateReferential s) 2 strict, s) := by
  have hm : ((2 : Nat) ∈ phs) := by simpa using h
  simp [validateStep2, h, hm, hh]

lemma stop3 (s : EvoSpec) (phs : List Nat) (strict : Bool) (acc : List ValidationError)
    (cur : Nat) (h : phs.contains 3 = true)
    (hh : hasHardErrors (validateSemanticRun s).1 = true) :
    validateStep3 s phs strict acc cur
      = (buildResult (acc ++ (validateSemanticRun s).1) 3 strict,
          (validateSemanticRun s).2) := by
  have hm : ((3 : Nat) ∈ phs) := by simpa using h
  simp [validateStep3, h, hm, hh]

lemma stop4 (s : EvoSpec) (phs : List Nat) (strict : Bool) (acc : List ValidationError)
    (cur : Nat) (h : phs.contains 4 = true)
    (hh : hasHardErrors (validateEvolution s) = true) :
    validateStep4 s phs strict acc cur
      = (buildResult (acc ++ validateEvolution s) 4 strict, s) := by
  have hm : ((4 : Nat) ∈ phs) := by simpa using h
  simp [validateStep4, h, hm, hh]

lemma stop5 (s : EvoSpec) (phs : List Nat) (strict : Bool) (acc : List ValidationError)
    (cur : Nat) (h : phs.contains 5 = true)
    (hh : hasHardErrors (validateGeneration s) = true) :
    validateStep5 s phs strict acc cur
      = (buildResult (acc ++ validateGeneration s) 5 strict, s) := by
  have hm : ((5 : Nat) ∈ phs) := by simpa using h
  simp [validateStep5, h, hm, hh]

/-- Claim C1: for any phase selection, the first selected phase among
1–5 whose error list contains a hard error determines the result: the
run stops there, the result is built from exactly the findings of the
phases run so far, and its `phase` field is that phase.  If no selected
phase among 1–5 yields a hard error and Phase 6 is selected, Phase 6
runs to completion and the result aggregates all six phases' findings
with `phase` 6 — Phase 6 never causes an early stop. -/
theorem claim_C1 (doc : EvoSpec) (opts : ValidateOptions) :
    (∀ p, p ∈ opts.phases → 1 ≤ p → p ≤ 5 →
      hasHardErrors (phaseErrors doc opts.phases p) = true →
      (∀ j, j ∈ opts.phases → 1 ≤ j → j < p →
        hasHardErrors (phaseErrors doc opts.phases j) = false) →
      validate doc opts = buildResult (collectThrough doc opts.phases p) p opts.strict)
    ∧ ((∀ j, j ∈ opts.phases → 1 ≤ j → j ≤ 5 →
        hasHardErrors (phaseErrors doc opts.phases j) = false) →
      (6 : Nat) ∈ opts.phases →
      validate doc opts
        = buildResult (collectThrough doc opts.phases 6) 6 opts.strict) := by
  have hok1 : ∀ (hall : ∀ j, j ∈ opts.phases → 1 ≤ j → j ≤ 5 →
      hasHardErrors (phaseErrors doc opts.phases j) = false) (k : Nat), 1 ≤ k → k ≤ 5 →
      opts.phases.contains k = true →
      hasHardErrors (phaseErrors doc opts.phases k) = false := by
    intro hall k h1 h5 hc
    exact hall k (by simpa using hc) h1 h5
  constructor
  · intro p hp h1 h5 hhard hearlier
    have hcp : opts.phases.contains p = true := by simpa using hp
    have hok : ∀ k, 1 ≤ k → k < p → opts.phases.contains k = true →
        hasHardErrors (phaseErrors doc opts.phases k) = false := by
      intro k hk1 hkp hc
      exact hearlier k (by simpa using hc) hk1 hkp
    interval_cases p
    · -- p = 1
      unfold validate validateRun
      simp only [validateStep1, hcp, reduceIte]
      rw [show hasHardErrors (validateStructural (encodeSpec doc)) = true from hhard]
      simp [collectThrough, flatMap_filter, phaseErrors,
        show List.range' 1 1 = [1] from rfl, hcp, hp]
    · -- p = 2
      unfold validate validateRun
      rw [run1 doc opts.phases opts.strict (fun hc => hok 1 le_rfl (by omega) hc)]
      rw [stop2 doc opts.phases opts.strict _ _ hcp hhard]
      simp [collectThrough, flatMap_filter, phaseErrors,
        show List.range' 1 2 = [1, 2] from rfl, hcp, hp]
    · -- p = 3
      unfold validate validateRun
      rw [run1 doc opts.phases opts.strict (fun hc => hok 1 le_rfl (by omega) hc)]
      rw [run2 doc opts.phases opts.strict _ _ (fun hc => hok 2 (by omega) (by omega) hc)]
      rw [stop3 doc opts.phases opts.strict _ _ hcp hhard]
      simp [collectThrough, flatMap_filter, phaseErrors,
        show List.range' 1 3 = [1, 2, 3] from rfl, hcp, hp]
    · -- p = 4
      unfold validate validateRun
      rw [run1 doc opts.phases opts.strict (fun hc => hok 1 le_rfl (by omega) hc)]
      rw [run2 doc opts.phases opts.strict _ _ (fun hc => hok 2 (by omega) (by omega) hc)]
      rw [run3 doc opts.phases opts.strict _ _ (fun hc => hok 3 (by omega) (by omega) hc)]
      rw [stop4 (docAfter3 doc opts.phases) opts.phases opts.strict _ _ hcp hhard]
      simp [collectThrough, flatMap_filter, phaseErrors,
        show List.range' 1 4 = [1, 2, 3, 4] from rfl, hcp, hp]
    · -- p = 5
      unfold validate validateRun
      rw [run1 doc opts.phases opts.strict (fun hc => hok 1 le_rfl (by omega) hc)]
      rw [run2 doc opts.phases opts.strict _ _ (fun hc => hok 2 (by omega) (by omega) hc)]
      rw [run3 doc opts.phases opts.strict _ _ (fun hc => hok 3 (by omega) (by omega) hc)]
      rw [run4 (docAfter3 doc opts.phases) opts.phases opts.strict _ _
        (fun hc => hok 4 (by omega) (by omega) hc)]
      rw [stop5 (docAfter3 doc opts.phases) opts.phases opts.strict _ _ hcp hhard]
      simp [collectThrough, flatMap_filter, phaseErrors,
        show List.range' 1 5 = [1, 2, 3, 4, 5] from rfl, hcp, hp]
  · intro hall h6
    have hc6 : opts.phases.contains 6 = true := by simpa using h6
    unfold validate validateRun
    rw [run1 doc opts.phases opts.strict (fun hc => hok1 hall 1 le_rfl (by omega) hc)]
    rw [run2 doc opts.phases opts.strict _ _ (fun hc => hok1 hall 2 (by omega) (by omega) hc)]
    rw [run3 doc opts.phases opts.strict _ _ (fun hc => hok1 hall 3 (by omega) (by omega) hc)]
    rw [run4 (docAfter3 doc opts.phases) opts.phases opts.strict _ _
      (fun hc => hok1 hall 4 (by omega) (by omega) hc)]
    rw [run5 (docAfter3 doc opts.phases) opts.phases opts.strict _ _
      (fun hc => hok1 hall 5 (by omega) (by omega) hc)]
    rw [run6 (docAfter3 doc opts.phases) opts.phases opts.strict _ _]
    simp [collectThrough, flatMap_filter, phaseErrors,
      show List.range' 1 6 = [1, 2, 3, 4, 5, 6] from rfl, hc6, h6]

/-- A document whose only failure is an unresolvable root reference
(hard, Phase 2). -/
def exDocC1 : EvoSpec :=
  { project := { id := "my.app", versioning := { current := "1.0.0" } }
    structure_ := { root := "NodeRef(system.missing)" }
    domain := { nodes := [
      { kind := "System", id := "system.root",
        spec := [(("goals" : String), JVal.arr [JVal.str ("demo")])] }] } }

theorem claim_C1_witness :
    validate exDocC1 {} = buildResult (collectThrough exDocC1 [1, 2, 3, 4, 5, 6] 2) 2 false
    ∧ validate minimalDoc {}
        = buildResult (collectThrough minimalDoc [1, 2, 3, 4, 5, 6] 6) 6 false :=
  ⟨(claim_C1 exDocC1 {}).1 2 (by decide) (by decide) (by decide) (by decide) (by decide),
   (claim_C1 minimalDoc {}).2 (by decide) (by decide)⟩

-- ============================================
-- Claims C4 and C10: cycle detection
-- ============================================

/-- Consecutive elements are child edges. -/
def adjAll (nodes : List Node) : List String → Bool
  | a :: b :: rest => childEdge nodes a b && adjAll nodes (b :: rest)
  | _ => true

/-- A closed cycle in the children graph: at least two elements, first
equal to last, consecutive elements joined by resolvable child edges. -/
def isCycleListB (nodes : List Node) : List String → Bool
  | [] => false
  | v :: t => !t.isEmpty && ((v :: t).getLast? == some v) && adjAll nodes (v :: t)

/-- The descending relation of the children graph (`b` is a child of
`a`), in the orientation used for accessibility. -/
def childRel (nodes : List Node) (b a : String) : Prop :=
  childEdge nodes a b = true

/-- Number of traversable ids not yet visited. -/
def unvisitedCount (nodes : List Node) (visited : List String) : Nat :=
  ((allIds nodes).filter (fun x => !(visited.contains x))).length

lemma contains_false_iff (l : List String) (x : String) :
    l.contains x = false ↔ x ∉ l := by
  constructor
  · intro hc hmem
    have h2 : l.contains x = true := by simpa using hmem
    rw [hc] at h2
    exact Bool.noConfusion h2
  · intro hmem
    cases hc : l.contains x
    · rfl
    · exact absurd (by simpa using hc) hmem

lemma filter_length_mono (p q : α → Bool) (h : ∀ a, q a = true → p a = true) :
    ∀ l : List α, (l.filter q).length ≤ (l.filter p).length
  | [] => le_rfl
  | a :: l => by
    have ih := filter_length_mono p q h l
    cases hq : q a
    · cases hp : p a <;> simp [List.filter_cons, hq, hp, Nat.le_succ_of_le, ih]
    · have hp := h a hq
      simp [List.filter_cons, hq, hp, ih]

lemma filter_length_strict (p q : α → Bool) (h : ∀ a, q a = true → p a = true)
    (x : α) (hpx : p x = true) (hqx : q x = false) :
    ∀ l : List α, x ∈ l → (l.filter q).length < (l.filter p).length
  | a :: l, hx => by
    have ihmono := filter_length_mono p q h l
    rcases List.mem_cons.mp hx with hax | hx
    · subst hax
      have hlt : (l.filter q).length < (l.filter p).length + 1 :=
        Nat.lt_succ_of_le ihmono
      simpa [List.filter_cons, hqx, hpx] using hlt
    · have ih := filter_length_strict p q h x hpx hqx l hx
      cases hq : q a
      · cases hp : p a <;> simp [List.filter_cons, hq, hp, Nat.lt_succ_of_lt, ih]
      · have hp := h a hq
        simp [List.filter_cons, hq, hp, ih]

lemma unvisitedCount_le (nodes : List Node) (visited : List String) :
    unvisitedCount nodes visited ≤ (allIds nodes).length :=
  List.length_filter_le _ _

lemma unvisitedCount_mono (nodes : List Node) {v1 v2 : List String}
    (h : ∀ x ∈ v1, x ∈ v2) :
    unvisitedCount nodes v2 ≤ unvisitedCount nodes v1 := by
  apply filter_length_mono
  intro a ha
  simp only [Bool.not_eq_true'] at ha ⊢
  rw [contains_false_iff] at ha ⊢
  intro hmem
  exact ha (h a hmem)

lemma unvisitedCount_strict (nodes : List Node) {x : String} {visited : List String}
    (hx : x ∈ allIds nodes) (hnx : visited.contains x = false) :
    unvisitedCount nodes (x :: visited) < unvisitedCount nodes visited := by
  apply filter_length_strict _ _ _ x _ _ _ hx
  · intro a ha
    simp only [Bool.not_eq_true'] at ha ⊢
    rw [contains_false_iff] at ha ⊢
    intro hmem
    exact ha (List.mem_cons_of_mem _ hmem)
  · simp only [Bool.not_eq_true']
    exact hnx
  · simp only [Bool.not_eq_false']
    simp

lemma nodeIndexGet_aux (i : String) :
    ∀ (l : List Node) (acc : Option Node) (n : Node),
      l.foldl (fun acc m => if m.id == i then some m else acc) acc = some n →
      acc = some n ∨ (n ∈ l ∧ n.id = i)
  | [], acc, n, h => Or.inl h
  | m :: l, acc, n, h => by
    rcases nodeIndexGet_aux i l (if m.id == i then some m else acc) n h with h1 | h1
    · by_cases hm : (m.id == i) = true
      · rw [hm] at h1
        simp only [reduceIte] at h1
        have hmn : m = n := Option.some_inj.mp h1
        subst hmn
        exact Or.inr ⟨List.mem_cons_self .., eq_of_beq hm⟩
      · simp only [Bool.not_eq_true] at hm
        rw [hm] at h1
        simp only [Bool.false_eq_true, reduceIte] at h1
        exact Or.inl h1
    · exact Or.inr ⟨List.mem_cons_of_mem _ h1.1, h1.2⟩

lemma nodeIndexGet_mem {nodes : List Node} {i : String} {n : Node}
    (h : nodeIndexGet nodes i = some n) : n ∈ nodes ∧ n.id = i := by
  rcases nodeIndexGet_aux i nodes none n h with h1 | h1
  · exact Option.noConfusion h1
  · exact h1

lemma childIdsOf_subset_allIds {nodes : List Node} {a b : String}
    (h : b ∈ childIdsOf nodes a) : b ∈ allIds nodes := by
  unfold childIdsOf at h
  cases hg : nodeIndexGet nodes a with
  | none => rw [hg] at h; simp at h
  | some n =>
    rw [hg] at h
    refine List.mem_append.mpr (Or.inr (List.mem_flatMap.mpr
      ⟨n, (nodeIndexGet_mem hg).1, h⟩))

lemma childEdge_source_mem {nodes : List Node} {a b : String}
    (h : childEdge nodes a b = true) :
    a ∈ allIds nodes ∧ ∃ n ∈ nodes, n.id = a := by
  unfold childEdge at h
  unfold childIdsOf at h
  cases hg : nodeIndexGet nodes a with
  | none => rw [hg] at h; simp at h
  | some n =>
    rcases nodeIndexGet_mem hg with ⟨hmem, hid⟩
    refine ⟨List.mem_append.mpr (Or.inl ?_), n, hmem, hid⟩
    rw [← hid]
    exact List.mem_map_of_mem _ hmem

lemma childEdge_target_mem {nodes : List Node} {a b : String}
    (h : childEdge nodes a b = true) : b ∈ allIds nodes := by
  unfold childEdge at h
  exact childIdsOf_subset_allIds (by simpa using h)

/-- Bundled monotonicity facts for one traversal step: visited ids are
never forgotten, errors only grow, a `false` outcome restores the
recursion stack and adds no errors, a `true` outcome adds at least one
error. -/
def StepMono (st : DfsState) (out : DfsState × Bool) : Prop :=
  (∀ x ∈ st.visited, x ∈ out.1.visited)
  ∧ (∃ d, out.1.errors = st.errors ++ d)
  ∧ (out.2 = false → out.1.recStack = st.recStack ∧ out.1.errors = st.errors)
  ∧ (out.2 = true → st.errors.length < out.1.errors.length)

lemma runChildren_mono (f : String → DfsState → DfsState × Bool)
    (hf : ∀ c st, StepMono st (f c st)) :
    ∀ (cs : List String) (st : DfsState), StepMono st (runChildren f cs st)
  | [], st =>
    ⟨fun _ hx => hx, ⟨[], (List.append_nil _).symm⟩, fun _ => ⟨rfl, rfl⟩,
     fun h => Bool.noConfusion h⟩
  | c :: rest, st => by
    have h1 := hf c st
    rcases hfc : f c st with ⟨st', b⟩
    rw [hfc] at h1
    cases b with
    | true =>
      have hd : runChildren f (c :: rest) st = (st', true) := by
        simp [runChildren, hfc]
      rw [hd]
      obtain ⟨hv1, he1, _, htr1⟩ := h1
      exact ⟨hv1, he1, fun h => Bool.noConfusion h, fun _ => htr1 rfl⟩
    | false =>
      have h2 := runChildren_mono f hf rest st'
      have hd : runChildren f (c :: rest) st = runChildren f rest st' := by
        simp [runChildren, hfc]
      rw [hd]
      obtain ⟨hv1, ⟨d1, he1⟩, hfa1, _⟩ := h1
      obtain ⟨hv2, ⟨d2, he2⟩, hfa2, htr2⟩ := h2
      rcases hfa1 rfl with ⟨hs1, herr1⟩
      refine ⟨fun x hx => hv2 x (hv1 x hx),
        ⟨d1 ++ d2, by rw [he2, he1, List.append_assoc]⟩, ?_, ?_⟩
      · intro hfalse
        rcases hfa2 hfalse with ⟨hs2, herr2⟩
        exact ⟨hs2.trans hs1, herr2.trans herr1⟩
      · intro htrue
        have h3 := htr2 htrue
        rw [herr1] at h3
        exact h3

lemma dfs_mono (nodes : List Node) :
    ∀ (fuel : Nat) (nodeId : String) (path : List String) (st : DfsState),
      StepMono st (dfs nodes fuel nodeId path st)
  | 0, _, _, st =>
    ⟨fun _ hx => hx, ⟨[], (List.append_nil _).symm⟩, fun _ => ⟨rfl, rfl⟩,
     fun h => Bool.noConfusion h⟩
  | fuel + 1, nodeId, path, st => by
    cases hstk : st.recStack.contains nodeId with
    | true =>
      have hstk' : nodeId ∈ st.recStack := by simpa using hstk
      have hd : dfs nodes (fuel + 1) nodeId path st
          = ({ st with errors := st.errors ++ [circularError (path ++ [nodeId])] },
             true) := by
        simp [dfs, hstk']
      rw [hd]
      exact ⟨fun _ hx => hx, ⟨_, rfl⟩, fun h => Bool.noConfusion h, fun _ => by simp⟩
    | false =>
      have hstk' : nodeId ∉ st.recStack := by simpa using hstk
      cases hvis : st.visited.contains nodeId with
      | true =>
        have hvis' : nodeId ∈ st.visited := by simpa using hvis
        have hd : dfs nodes (fuel + 1) nodeId path st = (st, false) := by
          simp [dfs, hstk', hvis']
        rw [hd]
        exact ⟨fun _ hx => hx, ⟨[], (List.append_nil _).symm⟩, fun _ => ⟨rfl, rfl⟩,
          fun h => Bool.noConfusion h⟩
      | false =>
        have hvis' : nodeId ∉ st.visited := by simpa using hvis
        have hloop := runChildren_mono
          (fun c st' => dfs nodes fuel c (path ++ [nodeId]) st')
          (fun c st' => dfs_mono nodes fuel c (path ++ [nodeId]) st')
          (childIdsOf nodes nodeId)
          { st with visited := nodeId :: st.visited, recStack := nodeId :: st.recStack }
        rcases hr : runChildren (fun c st' => dfs nodes fuel c (path ++ [nodeId]) st')
          (childIdsOf nodes nodeId)
          { st with visited := nodeId :: st.visited, recStack := nodeId :: st.recStack }
          with ⟨rst, rb⟩
        rw [hr] at hloop
        cases rb with
        | true =>
          have hd : dfs nodes (fuel + 1) nodeId path st = (rst, true) := by
            simp [dfs, hstk', hvis', hr]
          rw [hd]
          obtain ⟨hv, ⟨d, he⟩, _, htr⟩ := hloop
          refine ⟨fun x hx => hv x (List.mem_cons_of_mem _ hx),
            ⟨d, by simpa using he⟩, fun h => Bool.noConfusion h, fun _ => ?_⟩
          exact htr rfl
        | false =>
          have hd : dfs nodes (fuel + 1) nodeId path st
              = ({ rst with recStack := rst.recStack.erase nodeId }, false) := by
            simp [dfs, hstk', hvis', hr]
          rw [hd]
          obtain ⟨hv, ⟨d, he⟩, hfa, _⟩ := hloop
          rcases hfa rfl with ⟨hs, herr⟩
          refine ⟨fun x hx => hv x (List.mem_cons_of_mem _ hx),
            ⟨d, by simpa using he⟩, fun _ => ⟨?_, by simpa using herr⟩,
            fun h => Bool.noConfusion h⟩
          show rst.recStack.erase nodeId = st.recStack
          have hs2 : rst.recStack = nodeId :: st.recStack := hs
          rw [hs2]
          exact List.erase_cons_head ..

lemma adjAll_suffix (nodes : List Node) :
    ∀ (xs ys : List String), adjAll nodes (xs ++ ys) = true → adjAll nodes ys = true
  | [], _, h => h
  | a :: xs, ys, h => by
    apply adjAll_suffix nodes xs ys
    rw [List.cons_append] at h
    cases hl : xs ++ ys with
    | nil => rfl
    | cons b rest =>
      rw [hl] at h
      simp only [adjAll, Bool.and_eq_true] at h
      exact h.2

lemma adjAll_snoc (nodes : List Node) (c : String) :
    ∀ (xs : List String), adjAll nodes xs = true →
      (∀ u, xs.getLast? = some u → childEdge nodes u c = true) →
      adjAll nodes (xs ++ [c]) = true
  | [], _, _ => rfl
  | [a], _, hlast => by
    simp only [List.cons_append, List.nil_append, adjAll, Bool.and_eq_true]
    exact ⟨hlast a rfl, trivial⟩
  | a :: b :: rest, h, hlast => by
    simp only [adjAll, Bool.and_eq_true] at h
    have ih := adjAll_snoc nodes c (b :: rest) h.2
      (fun u hu => hlast u (by rw [← hu]; exact List.getLast?_cons_cons ..))
    simp only [List.cons_append, adjAll, Bool.and_eq_true]
    refine ⟨h.1, ?_⟩
    simpa using ih

lemma runChildren_shape (nodes : List Node) (fuel : Nat) (path1 : List String)
    (hdfs : ∀ nodeId st, st.recStack = path1.reverse →
      adjAll nodes (path1 ++ [nodeId]) = true →
      (dfs nodes fuel nodeId path1 st).2 = true →
      ∃ stem cyc, (dfs nodes fuel nodeId path1 st).1.errors
          = st.errors ++ [circularError (stem ++ cyc)]
        ∧ isCycleListB nodes cyc = true) :
    ∀ (cs : List String) (st : DfsState),
      st.recStack = path1.reverse →
      (∀ c ∈ cs, adjAll nodes (path1 ++ [c]) = true) →
      (runChildren (fun c st' => dfs nodes fuel c path1 st') cs st).2 = true →
      ∃ stem cyc,
        (runChildren (fun c st' => dfs nodes fuel c path1 st') cs st).1.errors
          = st.errors ++ [circularError (stem ++ cyc)]
        ∧ isCycleListB nodes cyc = true
  | [], _, _, _, hfound => absurd hfound (by simp [runChildren])
  | c :: rest, st, hstack, hadj, hfound => by
    have hmono := dfs_mono nodes fuel c path1 st
    rcases hfc : dfs nodes fuel c path1 st with ⟨st', b⟩
    rw [hfc] at hmono
    cases b with
    | true =>
      have hd : runChildren (fun c st' => dfs nodes fuel c path1 st') (c :: rest) st
          = (st', true) := by
        simp [runChildren, hfc]
      rw [hd]
      obtain ⟨stem, cyc, herr, hcyc⟩ :=
        hdfs c st hstack (hadj c (List.mem_cons_self ..)) (by rw [hfc])
      rw [hfc] at herr
      exact ⟨stem, cyc, herr, hcyc⟩
    | false =>
      have hd : runChildren (fun c st' => dfs nodes fuel c path1 st') (c :: rest) st
          = runChildren (fun c st' => dfs nodes fuel c path1 st') rest st' := by
        simp [runChildren, hfc]
      rw [hd] at hfound ⊢
      obtain ⟨_, _, hfa, _⟩ := hmono
      rcases hfa rfl with ⟨hs, herr⟩
      obtain ⟨stem, cyc, herr2, hcyc⟩ :=
        runChildren_shape nodes fuel path1 hdfs rest st' (hs.trans hstack)
          (fun x hx => hadj x (List.mem_cons_of_mem _ hx)) hfound
      rw [herr] at herr2
      exact ⟨stem, cyc, herr2, hcyc⟩

lemma dfs_shape (nodes : List Node) :
    ∀ (fuel : Nat) (nodeId : String) (path : List String) (st : DfsState),
      st.recStack = path.reverse →
      adjAll nodes (path ++ [nodeId]) = true →
      (dfs nodes fuel nodeId path st).2 = true →
      ∃ stem cyc,
        (dfs nodes fuel nodeId path st).1.errors
          = st.errors ++ [circularError (stem ++ cyc)]
        ∧ isCycleListB nodes cyc = true
  | 0, _, _, _, _, _, hfound => absurd hfound (by simp [dfs])
  | fuel + 1, nodeId, path, st, hstack, hadj, hfound => by
    cases hstk : st.recStack.contains nodeId with
    | true =>
      have hstk' : nodeId ∈ st.recStack := by simpa using hstk
      have hd : dfs nodes (fuel + 1) nodeId path st
          = ({ st with errors := st.errors ++ [circularError (path ++ [nodeId])] },
             true) := by
        simp [dfs, hstk']
      rw [hd]
      have hmem : nodeId ∈ path := by
        rw [hstack] at hstk'
        exact List.mem_reverse.mp hstk'
      obtain ⟨A, B, hAB⟩ := List.append_of_mem hmem
      refine ⟨A, nodeId :: (B ++ [nodeId]), ?_, ?_⟩
      · have hsplit : path ++ [nodeId] = A ++ (nodeId :: (B ++ [nodeId])) := by
          rw [hAB, List.append_assoc, List.cons_append]
        rw [hsplit]
      · simp only [isCycleListB, Bool.and_eq_true]
        refine ⟨⟨by simp, ?_⟩, ?_⟩
        · have : (nodeId :: (B ++ [nodeId])).getLast? = some nodeId := by
            rw [← List.cons_append]
            exact List.getLast?_concat ..
          simp [this]
        · have hsuf : adjAll nodes ((nodeId :: B) ++ [nodeId]) = true := by
            apply adjAll_suffix nodes A
            rw [← List.append_assoc, ← hAB]
            exact hadj
          simpa using hsuf
    | false =>
      have hstk' : nodeId ∉ st.recStack := by simpa using hstk
      cases hvis : st.visited.contains nodeId with
      | true =>
        have hvis' : nodeId ∈ st.visited := by simpa using hvis
        have hd : dfs nodes (fuel + 1) nodeId path st = (st, false) := by
          simp [dfs, hstk', hvis']
        rw [hd] at hfound
        exact Bool.noConfusion hfound
      | false =>
        have hvis' : nodeId ∉ st.visited := by simpa using hvis
        rcases hr : runChildren (fun c st' => dfs nodes fuel c (path ++ [nodeId]) st')
          (childIdsOf nodes nodeId)
          { st with visited := nodeId :: st.visited, recStack := nodeId :: st.recStack }
          with ⟨rst, rb⟩
        cases rb with
        | false =>
          have hd : dfs nodes (fuel + 1) nodeId path st
              = ({ rst with recStack := rst.recStack.erase nodeId }, false) := by
            simp [dfs, hstk', hvis', hr]
          rw [hd] at hfound
          exact Bool.noConfusion hfound
        | true =>
          have hd : dfs nodes (fuel + 1) nodeId path st = (rst, true) := by
            simp [dfs, hstk', hvis', hr]
          rw [hd]
          have hstack1 : nodeId :: st.recStack = (path ++ [nodeId]).reverse := by
            rw [List.reverse_concat, hstack]
          have hadj1 : ∀ c ∈ childIdsOf nodes nodeId,
              adjAll nodes ((path ++ [nodeId]) ++ [c]) = true := by
            intro c hc
            apply adjAll_snoc nodes c (path ++ [nodeId]) hadj
            intro u hu
            rw [List.getLast?_concat] at hu
            have huid : u = nodeId := by
              injection hu.symm
            subst huid
            show (childIdsOf nodes u).contains c = true
            simpa using hc
          obtain ⟨stem, cyc, herr, hcyc⟩ :=
            runChildren_shape nodes fuel (path ++ [nodeId])
              (fun nid st' => dfs_shape nodes fuel nid (path ++ [nodeId]) st')
              (childIdsOf nodes nodeId)
              { st with visited := nodeId :: st.visited, recStack := nodeId :: st.recStack }
              hstack1 hadj1 (by rw [hr])
          rw [hr] at herr
          exact ⟨stem, cyc, herr, hcyc⟩

lemma dfs_false_not_stack (nodes : List Node) (fuel : Nat) (nodeId : String)
    (path : List String) (st : DfsState)
    (hfuel : 1 ≤ fuel)
    (hfound : (dfs nodes fuel nodeId path st).2 = false) :
    nodeId ∉ st.recStack := by
  cases fuel with
  | zero => omega
  | succ fuel =>
    intro hmem
    have hd : (dfs nodes (fuel + 1) nodeId path st).2 = true := by
      simp [dfs, hmem]
    rw [hd] at hfound
    exact Bool.noConfusion hfound

lemma runChildren_acc (nodes : List Node) (fuel : Nat) (path1 : List String)
    (hdfs : ∀ nodeId st,
      unvisitedCount nodes st.visited + 1 ≤ fuel →
      nodeId ∈ allIds nodes →
      (∀ v ∈ st.visited, v ∉ st.recStack → Acc (childRel nodes) v) →
      (dfs nodes fuel nodeId path1 st).2 = false →
      nodeId ∈ (dfs nodes fuel nodeId path1 st).1.visited
      ∧ (∀ v ∈ (dfs nodes fuel nodeId path1 st).1.visited,
          v ∉ (dfs nodes fuel nodeId path1 st).1.recStack → Acc (childRel nodes) v)) :
    ∀ (cs : List String) (st : DfsState),
      unvisitedCount nodes st.visited + 1 ≤ fuel →
      (∀ c ∈ cs, c ∈ allIds nodes) →
      (∀ v ∈ st.visited, v ∉ st.recStack → Acc (childRel nodes) v) →
      (runChildren (fun c st' => dfs nodes fuel c path1 st') cs st).2 = false →
      (∀ c ∈ cs,
        c ∈ (runChildren (fun c st' => dfs nodes fuel c path1 st') cs st).1.visited
        ∧ c ∉ st.recStack)
      ∧ (∀ v ∈ (runChildren (fun c st' => dfs nodes fuel c path1 st') cs st).1.visited,
          v ∉ (runChildren (fun c st' => dfs nodes fuel c path1 st') cs st).1.recStack →
          Acc (childRel nodes) v)
  | [], st, _, _, hinv, _ => ⟨fun c hc => absurd hc (List.not_mem_nil c), hinv⟩
  | c :: rest, st, hfuel, hcs, hinv, hfound => by
    have hmono := dfs_mono nodes fuel c path1 st
    have hnstk := dfs_false_not_stack nodes fuel c path1 st (by omega)
    have hstep := hdfs c st hfuel (hcs c (List.mem_cons_self ..)) hinv
    rcases hfc : dfs nodes fuel c path1 st with ⟨st', b⟩
    rw [hfc] at hmono hstep hnstk
    cases b with
    | true =>
      have hd : (runChildren (fun c st' => dfs nodes fuel c path1 st') (c :: rest) st).2
          = true := by
        simp [runChildren, hfc]
      rw [hd] at hfound
      exact Bool.noConfusion hfound
    | false =>
      have hd : runChildren (fun c st' => dfs nodes fuel c path1 st') (c :: rest) st
          = runChildren (fun c st' => dfs nodes fuel c path1 st') rest st' := by
        simp [runChildren, hfc]
      rw [hd] at hfound ⊢
      obtain ⟨hvmono, _, hfa, _⟩ := hmono
      rcases hfa rfl with ⟨hs, _⟩
      obtain ⟨hcvis, hinv'⟩ := hstep rfl
      have hfuel' : unvisitedCount nodes st'.visited + 1 ≤ fuel := by
        have h1 : unvisitedCount nodes st'.visited ≤ unvisitedCount nodes st.visited :=
          unvisitedCount_mono nodes hvmono
        omega
      have hinv'2 : ∀ v ∈ st'.visited, v ∉ st'.recStack → Acc (childRel nodes) v := hinv'
      obtain ⟨hmem, hinvr⟩ := runChildren_acc nodes fuel path1 hdfs rest st' hfuel'
        (fun x hx => hcs x (List.mem_cons_of_mem _ hx)) hinv'2 hfound
      have hloopmono := runChildren_mono
        (fun c st' => dfs nodes fuel c path1 st')
        (fun c st' => dfs_mono nodes fuel c path1 st')
        rest st'
      refine ⟨?_, hinvr⟩
      intro x hx
      rcases List.mem_cons.mp hx with hxc | hxr
      · subst hxc
        exact ⟨hloopmono.1 x hcvis, hnstk rfl⟩
      · obtain ⟨hin, hnst⟩ := hmem x hxr
        rw [hs] at hnst
        exact ⟨hin, hnst⟩

lemma dfs_acc (nodes : List Node) :
    ∀ (fuel : Nat) (nodeId : String) (path : List String) (st : DfsState),
      unvisitedCount nodes st.visited + 1 ≤ fuel →
      nodeId ∈ allIds nodes →
      (∀ v ∈ st.visited, v ∉ st.recStack → Acc (childRel nodes) v) →
      (dfs nodes fuel nodeId path st).2 = false →
      nodeId ∈ (dfs nodes fuel nodeId path st).1.visited
      ∧ (∀ v ∈ (dfs nodes fuel nodeId path st).1.visited,
          v ∉ (dfs nodes fuel nodeId path st).1.recStack → Acc (childRel nodes) v)
  | 0, _, _, _, hfuel, _, _, _ => absurd hfuel (by omega)
  | fuel + 1, nodeId, path, st, hfuel, hmemAll, hinv, hfound => by
    cases hstk : st.recStack.contains nodeId with
    | true =>
      have hstk' : nodeId ∈ st.recStack := by simpa using hstk
      have hd : (dfs nodes (fuel + 1) nodeId path st).2 = true := by
        simp [dfs, hstk']
      rw [hd] at hfound
      exact Bool.noConfusion hfound
    | false =>
      have hstk' : nodeId ∉ st.recStack := by simpa using hstk
      cases hvis : st.visited.contains nodeId with
      | true =>
        have hvis' : nodeId ∈ st.visited := by simpa using hvis
        have hd : dfs nodes (fuel + 1) nodeId path st = (st, false) := by
          simp [dfs, hstk', hvis']
        rw [hd]
        exact ⟨hvis', hinv⟩
      | false =>
        have hvis' : nodeId ∉ st.visited := by simpa using hvis
        have hcount : unvisitedCount nodes (nodeId :: st.visited) + 1
            ≤ fuel := by
          have := unvisitedCount_strict nodes hmemAll hvis
          omega
        have hinv1 : ∀ v ∈ (nodeId :: st.visited), v ∉ (nodeId :: st.recStack) →
            Acc (childRel nodes) v := by
          intro v hv hnv
          rcases List.mem_cons.mp hv with hveq | hvmem
          · exact absurd (hveq ▸ List.mem_cons_self ..) hnv
          · exact hinv v hvmem (fun hmem => hnv (List.mem_cons_of_mem _ hmem))
        rcases hr : runChildren (fun c st' => dfs nodes fuel c (path ++ [nodeId]) st')
          (childIdsOf nodes nodeId)
          { st with visited := nodeId :: st.visited, recStack := nodeId :: st.recStack }
          with ⟨rst, rb⟩
        cases rb with
        | true =>
          have hd : (dfs nodes (fuel + 1) nodeId path st).2 = true := by
            simp [dfs, hstk', hvis', hr]
          rw [hd] at hfound
          exact Bool.noConfusion hfound
        | false =>
          have hd : dfs nodes (fuel + 1) nodeId path st
              = ({ rst with recStack := rst.recStack.erase nodeId }, false) := by
            simp [dfs, hstk', hvis', hr]
          rw [hd]
          have hloop := runChildren_acc nodes fuel (path ++ [nodeId])
            (fun nid st' => dfs_acc nodes fuel nid (path ++ [nodeId]) st')
            (childIdsOf nodes nodeId)
            { st with visited := nodeId :: st.visited, recStack := nodeId :: st.recStack }
            hcount (fun c hc => childIdsOf_subset_allIds hc) hinv1 (by rw [hr])
          rw [hr] at hloop
          obtain ⟨hcall, hinvr⟩ := hloop
          have hloopmono := runChildren_mono
            (fun c st' => dfs nodes fuel c (path ++ [nodeId]) st')
            (fun c st' => dfs_mono nodes fuel c (path ++ [nodeId]) st')
            (childIdsOf nodes nodeId)
            { st with visited := nodeId :: st.visited, recStack := nodeId :: st.recStack }
          rw [hr] at hloopmono
          obtain ⟨hvmono, _, hfa, _⟩ := hloopmono
          rcases hfa rfl with ⟨hsr, _⟩
          have hsr2 : rst.recStack = nodeId :: st.recStack := hsr
          have haccNode : Acc (childRel nodes) nodeId := by
            refine Acc.intro nodeId ?_
            intro y hy
            have hyc : y ∈ childIdsOf nodes nodeId := by
              have : (childIdsOf nodes nodeId).contains y = true := hy
              simpa using this
            obtain ⟨hyin, hynst⟩ := hcall y hyc
            apply hinvr y hyin
            rw [hsr2]
            exact hynst
          refine ⟨hvmono nodeId (List.mem_cons_self ..), ?_⟩
          intro v hv hnv
          show Acc (childRel nodes) v
          by_cases hveq : v = nodeId
          · exact hveq ▸ haccNode
          · apply hinvr v hv
            rw [hsr2]
            intro hvin
            rcases List.mem_cons.mp hvin with h1 | h2
            · exact hveq h1
            · apply hnv
              show v ∈ rst.recStack.erase nodeId
              rw [hsr2, List.erase_cons_head ..]
              exact h2

lemma runChildren_stable (nodes : List Node) (fuel : Nat) (path1 : List String)
    (hdfs : ∀ nodeId st, unvisitedCount nodes st.visited + 1 ≤ fuel →
      nodeId ∈ allIds nodes →
      dfs nodes (fuel + 1) nodeId path1 st = dfs nodes fuel nodeId path1 st) :
    ∀ (cs : List String) (st : DfsState),
      unvisitedCount nodes st.visited + 1 ≤ fuel →
      (∀ c ∈ cs, c ∈ allIds nodes) →
      runChildren (fun c st' => dfs nodes (fuel + 1) c path1 st') cs st
        = runChildren (fun c st' => dfs nodes fuel c path1 st') cs st
  | [], _, _, _ => rfl
  | c :: rest, st, hfuel, hcs => by
    have heq := hdfs c st hfuel (hcs c (List.mem_cons_self ..))
    have hmono := dfs_mono nodes fuel c path1 st
    rcases hfc : dfs nodes fuel c path1 st with ⟨st', b⟩
    rw [hfc] at heq hmono
    cases b with
    | true =>
      have h1 : runChildren (fun c st' => dfs nodes (fuel + 1) c path1 st') (c :: rest) st
          = (st', true) := by
        simp [runChildren, heq]
      have h2 : runChildren (fun c st' => dfs nodes fuel c path1 st') (c :: rest) st
          = (st', true) := by
        simp [runChildren, hfc]
      rw [h1, h2]
    | false =>
      have h1 : runChildren (fun c st' => dfs nodes (fuel + 1) c path1 st') (c :: rest) st
          = runChildren (fun c st' => dfs nodes (fuel + 1) c path1 st') rest st' := by
        simp [runChildren, heq]
      have h2 : runChildren (fun c st' => dfs nodes fuel c path1 st') (c :: rest) st
          = runChildren (fun c st' => dfs nodes fuel c path1 st') rest st' := by
        simp [runChildren, hfc]
      rw [h1, h2]
      have hfuel' : unvisitedCount nodes st'.visited + 1 ≤ fuel := by
        have hle : unvisitedCount nodes st'.visited ≤ unvisitedCount nodes st.visited :=
          unvisitedCount_mono nodes hmono.1
        omega
      exact runChildren_stable nodes fuel path1 hdfs rest st' hfuel'
        (fun x hx => hcs x (List.mem_cons_of_mem _ hx))

lemma dfs_stable (nodes : List Node) :
    ∀ (fuel : Nat) (nodeId : String) (path : List String) (st : DfsState),
      unvisitedCount nodes st.visited + 1 ≤ fuel →
      nodeId ∈ allIds nodes →
      dfs nodes (fuel + 1) nodeId path st = dfs nodes fuel nodeId path st
  | 0, _, _, _, hfuel, _ => absurd hfuel (by omega)
  | fuel + 1, nodeId, path, st, hfuel, hmemAll => by
    cases hstk : st.recStack.contains nodeId with
    | true =>
      have hstk' : nodeId ∈ st.recStack := by simpa using hstk
      have h1 : dfs nodes (fuel + 1 + 1) nodeId path st
          = ({ st with errors := st.errors ++ [circularError (path ++ [nodeId])] },
             true) := by
        simp [dfs, hstk']
      have h2 : dfs nodes (fuel + 1) nodeId path st
          = ({ st with errors := st.errors ++ [circularError (path ++ [nodeId])] },
             true) := by
        simp [dfs, hstk']
      rw [h1, h2]
    | false =>
      have hstk' : nodeId ∉ st.recStack := by simpa using hstk
      cases hvis : st.visited.contains nodeId with
      | true =>
        have hvis' : nodeId ∈ st.visited := by simpa using hvis
        have h1 : dfs nodes (fuel + 1 + 1) nodeId path st = (st, false) := by
          simp [dfs, hstk', hvis']
        have h2 : dfs nodes (fuel + 1) nodeId path st = (st, false) := by
          simp [dfs, hstk', hvis']
        rw [h1, h2]
      | false =>
        have hvis' : nodeId ∉ st.visited := by simpa using hvis
        have hcount : unvisitedCount nodes (nodeId :: st.visited) + 1 ≤ fuel := by
          have := unvisitedCount_strict nodes hmemAll hvis
          omega
        have hloopeq := runChildren_stable nodes fuel (path ++ [nodeId])
          (fun nid st' => dfs_stable nodes fuel nid (path ++ [nodeId]) st')
          (childIdsOf nodes nodeId)
          { st with visited := nodeId :: st.visited, recStack := nodeId :: st.recStack }
          hcount (fun c hc => childIdsOf_subset_allIds hc)
        rcases hr : runChildren (fun c st' => dfs nodes fuel c (path ++ [nodeId]) st')
          (childIdsOf nodes nodeId)
          { st with visited := nodeId :: st.visited, recStack := nodeId :: st.recStack }
          with ⟨rst, rb⟩
        have hr2 : runChildren (fun c st' => dfs nodes (fuel + 1) c (path ++ [nodeId]) st')
            (childIdsOf nodes nodeId)
            { st with visited := nodeId :: st.visited, recStack := nodeId :: st.recStack }
            = (rst, rb) := by
          rw [hloopeq, hr]
        cases rb with
        | true =>
          have h1 : dfs nodes (fuel + 1 + 1) nodeId path st = (rst, true) := by
            generalize hg : fuel + 1 = g at hr2
            simp [dfs, hstk', hvis', hr2]
          have h2 : dfs nodes (fuel + 1) nodeId path st = (rst, true) := by
            simp [dfs, hstk', hvis', hr]
          rw [h1, h2]
        | false =>
          have h1 : dfs nodes (fuel + 1 + 1) nodeId path st
              = ({ rst with recStack := rst.recStack.erase nodeId }, false) := by
            generalize hg : fuel + 1 = g at hr2
            simp [dfs, hstk', hvis', hr2]
          have h2 : dfs nodes (fuel + 1) nodeId path st
              = ({ rst with recStack := rst.recStack.erase nodeId }, false) := by
            simp [dfs, hstk', hvis', hr]
          rw [h1, h2]

lemma dfs_ge (nodes : List Node) (k : Nat) :
    ∀ (fuel : Nat) (nodeId : String) (path : List String) (st : DfsState),
      unvisitedCount nodes st.visited + 1 ≤ fuel →
      nodeId ∈ allIds nodes →
      dfs nodes (fuel + k) nodeId path st = dfs nodes fuel nodeId path st := by
  induction k with
  | zero => intro fuel nodeId path st _ _; rfl
  | succ k ih =>
    intro fuel nodeId path st hfuel hmem
    have h1 : dfs nodes (fuel + k + 1) nodeId path st
        = dfs nodes (fuel + k) nodeId path st :=
      dfs_stable nodes (fuel + k) nodeId path st (by omega) hmem
    have h0 : fuel + (k + 1) = fuel + k + 1 := rfl
    rw [h0, h1, ih fuel nodeId path st hfuel hmem]

lemma detectFold_stable (nodes : List Node) (extra : Nat) :
    ∀ (roots : List Node) (st : DfsState),
      (∀ n ∈ roots, n.id ∈ allIds nodes) →
      roots.foldl (fun (st : DfsState) (node : Node) =>
        if st.visited.contains node.id then st
        else (dfs nodes ((allIds nodes).length + 1 + extra) node.id [] st).1) st
      = roots.foldl (fun (st : DfsState) (node : Node) =>
        if st.visited.contains node.id then st
        else (dfs nodes ((allIds nodes).length + 1) node.id [] st).1) st
  | [], _, _ => rfl
  | n :: rs, st, hroots => by
    have hstep : (if st.visited.contains n.id then st
        else (dfs nodes ((allIds nodes).length + 1 + extra) n.id [] st).1)
        = (if st.visited.contains n.id then st
        else (dfs nodes ((allIds nodes).length + 1) n.id [] st).1) := by
      cases hv : st.visited.contains n.id with
      | true => simp
      | false =>
        simp only [Bool.false_eq_true, reduceIte]
        rw [dfs_ge nodes extra ((allIds nodes).length + 1) n.id [] st
          (by have := unvisitedCount_le nodes st.visited; omega)
          (hroots n (List.mem_cons_self ..))]
    simp only [List.foldl_cons]
    rw [hstep]
    exact detectFold_stable nodes extra rs _
      (fun m hm => hroots m (List.mem_cons_of_mem _ hm))

lemma detect_stable (nodes : List Node) (extra : Nat) :
    detectCircularChildrenFuel nodes ((allIds nodes).length + 1 + extra)
      = detectCircularChildren nodes := by
  unfold detectCircularChildren detectCircularChildrenFuel
  rw [detectFold_stable nodes extra nodes _
    (fun n hn => List.mem_append.mpr (Or.inl (List.mem_map_of_mem _ hn)))]

lemma adj_mem_succ (nodes : List Node) :
    ∀ (l : List String), adjAll nodes l = true →
      ∀ x ∈ l, (∃ w ∈ l, childEdge nodes x w = true) ∨ l.getLast? = some x
  | [], _, x, hx => absurd hx (List.not_mem_nil x)
  | [a], _, x, hx => by
    right
    have hxa : x = a := List.mem_singleton.mp hx
    subst hxa
    simp
  | a :: b :: rest, h, x, hx => by
    simp only [adjAll, Bool.and_eq_true] at h
    rcases List.mem_cons.mp hx with hxa | hx'
    · subst hxa
      exact Or.inl ⟨b, List.mem_cons_of_mem _ (List.mem_cons_self ..), h.1⟩
    · rcases adj_mem_succ nodes (b :: rest) h.2 x hx' with ⟨w, hw, he⟩ | hlast
      · exact Or.inl ⟨w, List.mem_cons_of_mem _ hw, he⟩
      · right
        rw [List.getLast?_cons_cons]
        exact hlast

lemma cycle_succ (nodes : List Node) (l : List String)
    (hcyc : isCycleListB nodes l = true) :
    ∀ x ∈ l, ∃ w ∈ l, childEdge nodes x w = true := by
  intro x hx
  cases l with
  | nil => exact absurd hx (List.not_mem_nil x)
  | cons v t =>
    simp only [isCycleListB, Bool.and_eq_true] at hcyc
    obtain ⟨⟨hne, hlast⟩, hadj⟩ := hcyc
    rcases adj_mem_succ nodes (v :: t) hadj x hx with h | h
    · exact h
    · have hxv : x = v := by
        have h2 : some x = some v := h.symm.trans (eq_of_beq hlast)
        exact Option.some_inj.mp h2
      subst hxv
      cases t with
      | nil => simp at hne
      | cons b rest =>
        simp only [adjAll, Bool.and_eq_true] at hadj
        exact ⟨b, List.mem_cons_of_mem _ (List.mem_cons_self ..), hadj.1⟩

lemma cycle_not_acc (nodes : List Node) (l : List String)
    (hcyc : isCycleListB nodes l = true) :
    ∀ v ∈ l, ¬ Acc (childRel nodes) v := by
  have key : ∀ v, Acc (childRel nodes) v → v ∉ l := by
    intro v ha
    induction ha with
    | intro u _ ih =>
      intro hu
      obtain ⟨w, hw, he⟩ := cycle_succ nodes l hcyc u hu
      exact ih w he hw
  exact fun v hv ha => key v ha hv

/-- One step of the root loop of `detectCircularChildren`. -/
def detectStep (nodes : List Node) (st : DfsState) (node : Node) : DfsState :=
  if st.visited.contains node.id then st
  else (dfs nodes ((allIds nodes).length + 1) node.id [] st).1

lemma detect_eq_fold (nodes : List Node) :
    detectCircularChildren nodes
      = (nodes.foldl (detectStep nodes)
          { errors := [], visited := [], recStack := [] }).errors := rfl

lemma foldStep_errors_mono (nodes : List Node) :
    ∀ (roots : List Node) (st : DfsState) (e : ValidationError),
      e ∈ st.errors → e ∈ (roots.foldl (detectStep nodes) st).errors
  | [], _, _, he => he
  | n :: rs, st, e, he => by
    simp only [List.foldl_cons]
    apply foldStep_errors_mono nodes rs (detectStep nodes st n) e
    unfold detectStep
    cases hv : st.visited.contains n.id with
    | true =>
      simpa using he
    | false =>
      simp only [Bool.false_eq_true, reduceIte]
      obtain ⟨_, ⟨d, hd⟩, _, _⟩ := dfs_mono nodes ((allIds nodes).length + 1) n.id [] st
      rw [hd]
      exact List.mem_append.mpr (Or.inl he)

lemma detectFold_inv (nodes : List Node) :
    ∀ (roots : List Node) (st : DfsState),
      (∀ n ∈ roots, n.id ∈ allIds nodes) →
      st.recStack = [] →
      st.errors = [] →
      (∀ v ∈ st.visited, Acc (childRel nodes) v) →
      ((roots.foldl (detectStep nodes) st).errors = []
        ∧ (roots.foldl (detectStep nodes) st).recStack = []
        ∧ (∀ v ∈ (roots.foldl (detectStep nodes) st).visited, Acc (childRel nodes) v)
        ∧ (∀ n ∈ roots, n.id ∈ (roots.foldl (detectStep nodes) st).visited)
        ∧ (∀ x ∈ st.visited, x ∈ (roots.foldl (detectStep nodes) st).visited))
      ∨ (∃ stem cyc, circularError (stem ++ cyc) ∈ (roots.foldl (detectStep nodes) st).errors
          ∧ isCycleListB nodes cyc = true)
  | [], st, _, hrs, herr, hacc =>
    Or.inl ⟨herr, hrs, hacc, fun n hn => absurd hn (List.not_mem_nil n), fun _ hx => hx⟩
  | n :: rs, st, hroots, hrs, herr, hacc => by
    simp only [List.foldl_cons]
    cases hv : st.visited.contains n.id with
    | true =>
      have hv' : n.id ∈ st.visited := by simpa using hv
      have hstep : detectStep nodes st n = st := by
        unfold detectStep
        rw [hv]
        simp
      rw [hstep]
      rcases detectFold_inv nodes rs st (fun m hm => hroots m (List.mem_cons_of_mem _ hm))
        hrs herr hacc with ⟨h1, h2, h3, h4, h5⟩ | hcyc
      · refine Or.inl ⟨h1, h2, h3, ?_, h5⟩
        intro m hm
        rcases List.mem_cons.mp hm with hmn | hmr
        · subst hmn
          exact h5 m.id hv'
        · exact h4 m hmr
      · exact Or.inr hcyc
    | false =>
      have hstep : detectStep nodes st n
          = (dfs nodes ((allIds nodes).length + 1) n.id [] st).1 := by
        unfold detectStep
        rw [hv]
        simp only [Bool.false_eq_true, reduceIte]
      rw [hstep]
      have hmono := dfs_mono nodes ((allIds nodes).length + 1) n.id [] st
      rcases hfc : dfs nodes ((allIds nodes).length + 1) n.id [] st with ⟨st', b⟩
      rw [hfc] at hmono
      cases b with
      | false =>
        have hstep2 := dfs_acc nodes ((allIds nodes).length + 1) n.id [] st
          (by have := unvisitedCount_le nodes st.visited; omega)
          (hroots n (List.mem_cons_self ..))
          (fun v hvv _ => hacc v hvv)
        rw [hfc] at hstep2
        obtain ⟨hnvis, hinv'⟩ := hstep2 rfl
        obtain ⟨hvmono, _, hfa, _⟩ := hmono
        rcases hfa rfl with ⟨hs', herr'⟩
        have hrs' : st'.recStack = [] := by rw [hs', hrs]
        have herr2 : st'.errors = [] := by rw [herr', herr]
        have hacc' : ∀ v ∈ st'.visited, Acc (childRel nodes) v := by
          intro v hvv
          apply hinv' v hvv
          rw [hrs']
          exact List.not_mem_nil v
        rcases detectFold_inv nodes rs st'
          (fun m hm => hroots m (List.mem_cons_of_mem _ hm)) hrs' herr2 hacc'
          with ⟨h1, h2, h3, h4, h5⟩ | hcyc
        · refine Or.inl ⟨h1, h2, h3, ?_, fun x hx => h5 x (hvmono x hx)⟩
          intro m hm
          rcases List.mem_cons.mp hm with hmn | hmr
          · subst hmn
            exact h5 m.id hnvis
          · exact h4 m hmr
        · exact Or.inr hcyc
      | true =>
        have hshape := dfs_shape nodes ((allIds nodes).length + 1) n.id [] st
          (by rw [hrs]; rfl) rfl
        rw [hfc] at hshape
        obtain ⟨stem, cyc, herr', hcyc⟩ := hshape rfl
        rw [herr] at herr'
        right
        refine ⟨stem, cyc, ?_, hcyc⟩
        apply foldStep_errors_mono nodes rs st'
        rw [herr']
        simp

lemma detect_result (nodes : List Node) :
    (detectCircularChildren nodes = []
      ∧ ∀ n ∈ nodes, Acc (childRel nodes) n.id)
    ∨ (∃ stem cyc, circularError (stem ++ cyc) ∈ detectCircularChildren nodes
        ∧ isCycleListB nodes cyc = true) := by
  rw [detect_eq_fold]
  rcases detectFold_inv nodes nodes { errors := [], visited := [], recStack := [] }
    (fun n hn => List.mem_append.mpr (Or.inl (List.mem_map_of_mem _ hn)))
    rfl rfl (fun v hv => absurd hv (List.not_mem_nil v))
    with ⟨h1, _, h3, h4, _⟩ | hcyc
  · exact Or.inl ⟨h1, fun n hn => h3 n.id (h4 n hn)⟩
  · exact Or.inr hcyc

lemma circ_sub_validateReferential (spec : EvoSpec) (e : ValidationError)
    (he : e ∈ detectCircularChildren spec.domain.nodes) :
    e ∈ validateReferential spec := by
  unfold validateReferential
  exact List.mem_append.mpr (Or.inl (List.mem_append.mpr (Or.inr he)))

lemma validateReferential_split (spec : EvoSpec) (e : ValidationError)
    (he : e ∈ validateReferential spec) :
    e ∈ detectCircularChildren spec.domain.nodes
    ∨ e.code = ErrorCode.UNRESOLVED_ROOT
    ∨ e.code = ErrorCode.INVALID_ROOT_KIND
    ∨ e.code = ErrorCode.UNRESOLVED_NODEREF := by
  unfold validateReferential at he
  simp only [List.mem_append] at he
  rcases he with ((hroot | hchild) | hcirc) | hscen
  · right
    split at hroot
    · rw [List.mem_singleton.mp hroot]
      exact Or.inl rfl
    · split at hroot
      · rw [List.mem_singleton.mp hroot]
        exact Or.inl rfl
      · split at hroot
        · exact absurd hroot (List.not_mem_nil e)
        · rw [List.mem_singleton.mp hroot]
          exact Or.inr (Or.inl rfl)
  · right
    right
    right
    obtain ⟨p, _, hp⟩ := List.mem_flatMap.mp hchild
    split at hp
    · exact absurd hp (List.not_mem_nil e)
    · obtain ⟨q, _, hq⟩ := List.mem_flatMap.mp hp
      split at hq
      · exact absurd hq (List.not_mem_nil e)
      · split at hq
        · split at hq
          · exact absurd hq (List.not_mem_nil e)
          · rw [List.mem_singleton.mp hq]
        · rw [List.mem_singleton.mp hq]
  · exact Or.inl hcirc
  · right
    right
    right
    split at hscen
    · exact absurd hscen (List.not_mem_nil e)
    · split at hscen
      · exact absurd hscen (List.not_mem_nil e)
      · obtain ⟨p, _, hp⟩ := List.mem_flatMap.mp hscen
        split at hp
        · split at hp
          · exact absurd hp (List.not_mem_nil e)
          · rw [List.mem_singleton.mp hp]
        · exact absurd hp (List.not_mem_nil e)

/-- Claim C4: if the `children` reference graph of the document has a cycle
(witnessed by a closed edge-chain), Phase 2 reports at least one hard
`CIRCULAR_CHILDREN` error whose context and message carry a full cycle
path (a closed edge-chain, possibly after a stem of lead-in nodes), and
the traversal terminates: any fuel beyond the bound
`(allIds nodes).length + 1` leaves the result unchanged. -/
theorem claim_C4 (spec : EvoSpec) (cyc0 : List String)
    (hcyc0 : isCycleListB spec.domain.nodes cyc0 = true) :
    (∃ e ∈ validateReferential spec,
      e.code = ErrorCode.CIRCULAR_CHILDREN ∧ e.level = Level.hard ∧ e.phase = 2
      ∧ ∃ stem cyc, isCycleListB spec.domain.nodes cyc = true
        ∧ e.context = some (stem ++ cyc)
        ∧ e.message = ("Circular reference detected: "
            ++ String.intercalate (" -> ") (stem ++ cyc)))
    ∧ (∀ extra, detectCircularChildrenFuel spec.domain.nodes
        ((allIds spec.domain.nodes).length + 1 + extra)
        = detectCircularChildren spec.domain.nodes) := by
  constructor
  · rcases detect_result spec.domain.nodes with ⟨_, haccAll⟩ | ⟨stem, cyc, hmem, hcyc⟩
    · exfalso
      cases cyc0 with
      | nil => exact Bool.noConfusion hcyc0
      | cons v t =>
        have hv : v ∈ v :: t := List.mem_cons_self ..
        obtain ⟨w, _, hedge⟩ := cycle_succ _ _ hcyc0 v hv
        obtain ⟨_, n, hn, hnid⟩ := childEdge_source_mem hedge
        exact cycle_not_acc _ _ hcyc0 v hv (hnid ▸ haccAll n hn)
    · exact ⟨circularError (stem ++ cyc), circ_sub_validateReferential spec _ hmem,
        rfl, rfl, rfl, stem, cyc, hcyc, rfl, rfl⟩
  · intro extra
    exact detect_stable spec.domain.nodes extra

/-- A document whose `children` references form the cycle
`node.a -> node.b -> node.a`. -/
def exDocC4 : EvoSpec :=
  { project := { id := "my.app", versioning := { current := "1.0.0" } }
    structure_ := { root := "NodeRef(system.root)" }
    domain := { nodes := [
      { kind := "System", id := "system.root",
        spec := [(("goals" : String), JVal.arr [JVal.str ("demo")])],
        children := some [.ref ("NodeRef(node.a)")] },
      { kind := "Entity", id := "node.a", spec := [],
        children := some [.ref ("NodeRef(node.b)")] },
      { kind := "Entity", id := "node.b", spec := [],
        children := some [.ref ("NodeRef(node.a)")] }] } }

theorem claim_C4_witness :
    isCycleListB exDocC4.domain.nodes (["node.a", "node.b", "node.a"]) = true
    ∧ ((∃ e ∈ validateReferential exDocC4,
        e.code = ErrorCode.CIRCULAR_CHILDREN ∧ e.level = Level.hard ∧ e.phase = 2
        ∧ ∃ stem cyc, isCycleListB exDocC4.domain.nodes cyc = true
          ∧ e.context = some (stem ++ cyc)
          ∧ e.message = ("Circular reference detected: "
              ++ String.intercalate (" -> ") (stem ++ cyc)))
      ∧ (∀ extra, detectCircularChildrenFuel exDocC4.domain.nodes
          ((allIds exDocC4.domain.nodes).length + 1 + extra)
          = detectCircularChildren exDocC4.domain.nodes)) :=
  ⟨by decide, claim_C4 exDocC4 (["node.a", "node.b", "node.a"]) (by decide)⟩

lemma minimalDoc_no_edge (a b : String) :
    childEdge minimalDoc.domain.nodes a b = false := by
  unfold childEdge childIdsOf
  cases hg : nodeIndexGet minimalDoc.domain.nodes a with
  | none => rfl
  | some n =>
    obtain ⟨hn, _⟩ := nodeIndexGet_mem hg
    have hn2 := List.mem_singleton.mp hn
    show (childRefIds n).contains b = false
    rw [hn2]
    rfl

lemma minimalDoc_acc : ∀ v, Acc (childRel minimalDoc.domain.nodes) v := by
  intro v
  constructor
  intro y hy
  have hy' : childEdge minimalDoc.domain.nodes v y = true := hy
  rw [minimalDoc_no_edge v y] at hy'
  exact Bool.noConfusion hy'

/-- Claim C10: if every node of the `children` reference graph is accessible
(the graph is acyclic), Phase 2 reports zero `CIRCULAR_CHILDREN`
errors. -/
theorem claim_C10 (spec : EvoSpec)
    (hacyc : ∀ v, Acc (childRel spec.domain.nodes) v) :
    ∀ e ∈ validateReferential spec, e.code ≠ ErrorCode.CIRCULAR_CHILDREN := by
  intro e he hcode
  rcases validateReferential_split spec e he with hcirc | h | h | h
  · rcases detect_result spec.domain.nodes with ⟨hnil, _⟩ | ⟨stem, cyc, _, hcyc⟩
    · rw [hnil] at hcirc
      exact absurd hcirc (List.not_mem_nil e)
    · cases cyc with
      | nil => exact Bool.noConfusion hcyc
      | cons v t =>
        exact cycle_not_acc _ _ hcyc v (List.mem_cons_self ..) (hacyc v)
  · rw [h] at hcode
    exact ErrorCode.noConfusion hcode
  · rw [h] at hcode
    exact ErrorCode.noConfusion hcode
  · rw [h] at hcode
    exact ErrorCode.noConfusion hcode

theorem claim_C10_witness :
    (validateReferential minimalDoc).filter
      (fun e => e.code == ErrorCode.CIRCULAR_CHILDREN) = [] := by
  rw [List.filter_eq_nil_iff]
  exact fun e he hb =>
    claim_C10 minimalDoc minimalDoc_acc e he (eq_of_beq hb)

end SysConst
